import Mathlib

/-!
# Session state machine of the party game server (`src/server/server.js`)

A shallow embedding of the game data and the four mutating request handlers
of `server.js` (`/api/upload`, `/api/ready`, `/api/next-stage`, `/api/vote`),
followed by theorems about them.

Modelling conventions.

* The module-level `let` variables of `server.js` (`players`, `currentWord`,
  `impostorId`, `stage`, `currentQuestionIndex`, `readyPlayers`, `votes`,
  `votedPlayers`) are the fields of `GameState`; a handler is a function from
  the state before the request to the HTTP response and the state after it.
* Request fields are JSON strings or missing (`Option String`), as the client
  `App.js` sends them; a missing field and the empty string are the falsy
  values the handlers reject with `!field`.
* A JavaScript `Set` of strings is the list of its elements in insertion
  order; `setAdd` keeps it duplicate free and `size` is the length.
* The object `votes` is the list of its own properties in creation order;
  `Object.entries` enumerates array-index keys first, in ascending numeric
  order, and then the other keys in creation order (`objectEntries`).
* A call of `Math.random()` enters only through
  `Math.floor(Math.random() * n)`, an index below `n`; the two draws of a
  round start are parameters of the handler (`UnitDraw`).
* `Date.now()` is a natural number of milliseconds, a parameter as well.
* Scores and counts are natural numbers; they only ever grow by `+ 100` and
  `+ 1`, far below the range where a double stops being exact.
* The socket layer is the list of connected socket ids together with the list
  of `game-state-update` events sent so far; `io.emit` sends one event to
  every connected socket (`Server`, `broadcastGameState`).
-/

namespace Game

/-! ## Data model -/

/-- The variable `stage`: one of the four strings the server assigns. -/
inductive Stage where
  | waiting
  | asking
  | voting
  | results
  deriving DecidableEq, Repr

/-- The field `highlight` of a player object. -/
inductive Highlight where
  | none
  | ready
  | caught
  | winner
  deriving DecidableEq, Repr

/-- A player object as built by `/api/upload` (`newPlayer`). -/
structure Player where
  id : String
  name : String
  photoUrl : String
  score : Nat
  highlight : Highlight
  word : Option String
  deriving DecidableEq, Repr

/-- A value of the object `votes`: `{ count, voters }`. -/
structure VoteData where
  count : Nat
  voters : List String
  deriving DecidableEq, Repr

/-- The game data of `server.js` (lines 41-48). -/
structure GameState where
  players : List Player
  currentWord : Option String
  impostorId : Option String
  stage : Stage
  currentQuestionIndex : Nat
  readyPlayers : List String
  votes : List (String × VoteData)
  votedPlayers : List String
  deriving DecidableEq, Repr

/-- The game data at process start. -/
def initialState : GameState :=
  { players := []
    currentWord := none
    impostorId := none
    stage := Stage.waiting
    currentQuestionIndex := 0
    readyPlayers := []
    votes := []
    votedPlayers := [] }

/-- The error responses of the handlers (all HTTP 400). -/
inductive ApiError where
  | nameAndPhotoRequired
  | nameExists
  | playerIdRequired
  | voterAndVotedRequired
  | cannotVoteForYourself
  | alreadyVoted
  | invalidPlayerIds
  deriving DecidableEq, Repr

/-! ## JavaScript helpers -/

/-- Truthiness of a request field: `!field` holds for a missing field and for
the empty string. -/
def falsy (v : Option String) : Bool :=
  match v with
  | Option.none => true
  | some x => x == ""

/-- The method `Set.prototype.add` on a set of strings kept in insertion order. -/
def setAdd (xs : List String) (x : String) : List String :=
  if x ∈ xs then xs else xs ++ [x]

/-- The value of a decimal digit character. -/
def digitValue (c : Char) : Option Nat :=
  if 48 ≤ c.toNat ∧ c.toNat ≤ 57 then some (c.toNat - 48) else Option.none

/-- Reads a run of decimal digits, most significant first. -/
def parseDigits : List Char → Nat → Option Nat
  | [], acc => some acc
  | c :: cs, acc =>
    match digitValue c with
    | Option.none => Option.none
    | some d => parseDigits cs (acc * 10 + d)

/-- The array index a property key denotes, if any: the key is the canonical
decimal numeral of an integer below `2^32 - 1`. -/
def arrayIndex (k : String) : Option Nat :=
  match k.data with
  | [] => Option.none
  | [c] => digitValue c
  | c :: cs =>
    if c = '0' then Option.none
    else
      match parseDigits (c :: cs) 0 with
      | Option.none => Option.none
      | some n => if n < 4294967295 then some n else Option.none

/-- Order of two array-index keys in a property enumeration. -/
def indexLE (a b : String × VoteData) : Prop :=
  (arrayIndex a.1).getD 0 ≤ (arrayIndex b.1).getD 0

instance : DecidableRel indexLE := fun a b =>
  inferInstanceAs (Decidable ((arrayIndex a.1).getD 0 ≤ (arrayIndex b.1).getD 0))

/-- The call `Object.entries(votes)`: array-index keys in ascending numeric
order, then the remaining keys in creation order. -/
def objectEntries (votes : List (String × VoteData)) : List (String × VoteData) :=
  (votes.filter fun e => (arrayIndex e.1).isSome).insertionSort indexLE ++
    votes.filter fun e => !(arrayIndex e.1).isSome

/-- The own property `votes[key]`, if present. -/
def lookupVotes (votes : List (String × VoteData)) (key : String) : Option VoteData :=
  (votes.find? fun e => e.1 == key).map Prod.snd

/-- The statements `votes[key].count += 1; votes[key].voters.push(name)` on an
existing property. -/
def recordVote (votes : List (String × VoteData)) (key name : String) :
    List (String × VoteData) :=
  votes.map fun e =>
    if e.1 == key then (e.1, { count := e.2.count + 1, voters := e.2.voters ++ [name] }) else e

/-- One call of `Math.random()`, as far as the server uses it: `index n` is the
value of `Math.floor(Math.random() * n)` for a list of length `n`. The random
number is a double below 1 and the rounded double product stays below `n`, so
the value is an index of the list; which index a given random number selects
is left open. -/
structure UnitDraw where
  index : Nat → Nat
  lt : ∀ n, 0 < n → index n < n

/-- The expression `Math.floor(Math.random() * n)`. -/
def UnitDraw.floorMul (r : UnitDraw) (n : Nat) : Nat :=
  r.index n

/-- The vocabulary `words` of `/api/ready`. -/
def words : List String := ["اسد", "نمر", "فيل", "زرافة", "حمار وحشي"]

/-- The role string given to the impostor. -/
def impostorWord : String := "Impostor"

/-! ## Request handlers -/

/-- The object `newPlayer` of `/api/upload`: the id is `Date.now().toString()`. -/
def newPlayer (name fileName : String) (now : Nat) : Player :=
  { id := toString now
    name := name
    photoUrl := "/uploads/" ++ fileName
    score := 0
    highlight := Highlight.none
    word := Option.none }

/-- The handler of `POST /api/upload`: `name` is `req.body.name`, `file` is
`req.file.filename` when a photo was uploaded, `now` is the reading of
`Date.now()` that becomes the id. -/
def apiUpload (s : GameState) (name file : Option String) (now : Nat) :
    Except ApiError Player × GameState :=
  match name, file with
  | some n, some f =>
    if n == "" then (Except.error ApiError.nameAndPhotoRequired, s)
    else
      match s.players.find? fun p => p.name == n with
      | some _ => (Except.error ApiError.nameExists, s)
      | Option.none =>
        (Except.ok (newPlayer n f now), { s with players := s.players ++ [newPlayer n f now] })
  | _, _ => (Except.error ApiError.nameAndPhotoRequired, s)

/-- The handler of `POST /api/ready`; `wordDraw` and `impostorDraw` are the two
values of `Math.random()` a round start consumes. The index computed from a
draw is below the length of the list it indexes, so the lookups `words[..]`
and `players[..]` always find an element. -/
def apiReady (s : GameState) (playerId : Option String) (wordDraw impostorDraw : UnitDraw) :
    Except ApiError Unit × GameState :=
  if falsy playerId then (Except.error ApiError.playerIdRequired, s)
  else
    let pid := playerId.getD ""
    let readyPlayers := setAdd s.readyPlayers pid
    let players := s.players.map fun p =>
      if p.id == pid then { p with highlight := Highlight.ready } else p
    if readyPlayers.length = players.length ∧ 3 ≤ players.length then
      let currentWord := words[wordDraw.floorMul words.length]?
      let impostorId := (players[impostorDraw.floorMul players.length]?).map Player.id
      (Except.ok (),
        { players := players.map fun p =>
            { p with
              word := if some p.id = impostorId then some impostorWord else currentWord
              highlight := Highlight.none }
          currentWord := currentWord
          impostorId := impostorId
          stage := Stage.asking
          currentQuestionIndex := 0
          readyPlayers := []
          votes := []
          votedPlayers := [] })
    else
      (Except.ok (), { s with readyPlayers := readyPlayers, players := players })

/-- The loop of `/api/next-stage` over `Object.entries(votes)`: the pair
`(mostVotedPlayerId, maxVotes)` after the entries `es`, started from `acc`. -/
def scanVotes (es : List (String × VoteData)) (acc : Option String × Nat) :
    Option String × Nat :=
  es.foldl (fun a e => if e.2.count > a.2 then (some e.1, e.2.count) else a) acc

/-- The variable `mostVotedPlayerId` after the loop of `/api/next-stage`. -/
def mostVotedPlayerId (votes : List (String × VoteData)) : Option String :=
  (scanVotes (objectEntries votes) (Option.none, 0)).1

/-- The function `resetGameState` (without its broadcast). -/
def resetGameState (s : GameState) : GameState :=
  { s with
    stage := Stage.waiting
    votes := []
    votedPlayers := []
    currentQuestionIndex := 0
    players := s.players.map fun p =>
      { p with
        word := Option.none
        highlight := if p.id ∈ s.readyPlayers then Highlight.ready else Highlight.none } }

/-- The state change of `POST /api/next-stage`. In stage `asking` the server
computes `(currentQuestionIndex + 1) % players.length`; every state in that
stage reached by requests has at least three players. -/
def nextStage (s : GameState) : GameState :=
  match s.stage with
  | Stage.asking =>
    let i := (s.currentQuestionIndex + 1) % s.players.length
    { s with
      currentQuestionIndex := i
      stage := if i = 0 then Stage.voting else Stage.asking }
  | Stage.voting =>
    let mostVoted := mostVotedPlayerId s.votes
    let players := s.players.map fun p => { p with highlight := Highlight.none }
    { s with
      stage := Stage.results
      players :=
        if mostVoted = s.impostorId then
          players.map fun p =>
            if some p.id = s.impostorId then { p with highlight := Highlight.caught }
            else { p with score := p.score + 100 }
        else
          players.map fun p =>
            if some p.id = s.impostorId then
              { p with score := p.score + 100, highlight := Highlight.winner }
            else p }
  | Stage.results => resetGameState s
  | Stage.waiting => s

/-- The handler of `POST /api/next-stage`: the response carries `stage` and
`currentQuestioner: players[currentQuestionIndex]`. -/
def apiNextStage (s : GameState) : Except ApiError (Stage × Option Player) × GameState :=
  let t := nextStage s
  (Except.ok (t.stage, t.players[t.currentQuestionIndex]?), t)

/-- The handler of `POST /api/vote`; the response carries `voter` and
`votedPlayer`. -/
def apiVote (s : GameState) (voterId votedPlayerId : Option String) :
    Except ApiError (Player × Player) × GameState :=
  if falsy voterId ∨ falsy votedPlayerId then (Except.error ApiError.voterAndVotedRequired, s)
  else
    let vid := voterId.getD ""
    let cid := votedPlayerId.getD ""
    if vid = cid then (Except.error ApiError.cannotVoteForYourself, s)
    else if vid ∈ s.votedPlayers then (Except.error ApiError.alreadyVoted, s)
    else
      match s.players.find? (fun p => p.id == vid), s.players.find? (fun p => p.id == cid) with
      | some voter, some votedPlayer =>
        let votedPlayers := setAdd s.votedPlayers vid
        let created :=
          match lookupVotes s.votes cid with
          | Option.none => s.votes ++ [(cid, { count := 0, voters := [] })]
          | some _ => s.votes
        let votes := recordVote created cid voter.name
        if votedPlayers.length = s.players.length then
          (Except.ok (voter, votedPlayer),
            { s with stage := Stage.results, votedPlayers := [], votes := votes })
        else
          (Except.ok (voter, votedPlayer),
            { s with votedPlayers := votedPlayers, votes := votes })
      | _, _ => (Except.error ApiError.invalidPlayerIds, s)

/-! ## Requests and reachable states -/

/-- A request to one of the four mutating endpoints, with the clock reading
or random draws the handler consumes. -/
inductive Op where
  | registerPlayer (name file : Option String) (now : Nat)
  | markReady (playerId : Option String) (wordDraw impostorDraw : UnitDraw)
  | advanceStage
  | castVote (voterId votedPlayerId : Option String)

/-- The game data after a request. -/
def step (s : GameState) : Op → GameState
  | Op.registerPlayer name file now => (apiUpload s name file now).2
  | Op.markReady playerId wordDraw impostorDraw => (apiReady s playerId wordDraw impostorDraw).2
  | Op.advanceStage => (apiNextStage s).2
  | Op.castVote voterId votedPlayerId => (apiVote s voterId votedPlayerId).2

/-- The game data after a sequence of requests, from process start. -/
def run (ops : List Op) : GameState :=
  ops.foldl step initialState

/-- The states the server can be in: reached from process start by requests. -/
inductive Reachable : GameState → Prop where
  | init : Reachable initialState
  | step (s : GameState) (op : Op) : Reachable s → Reachable (step s op)

/-! ## Broadcasting -/

/-- The payload of a `game-state-update` event (and of `GET /api/game-state`). -/
structure Snapshot where
  players : List Player
  currentWord : Option String
  impostorId : Option String
  stage : Stage
  currentQuestioner : Option Player
  readyPlayers : List String
  votes : List (String × VoteData)
  currentQuestionIndex : Nat
  deriving DecidableEq, Repr

/-- The object literal the server emits: the game data with
`currentQuestioner: players[currentQuestionIndex]` and
`readyPlayers: Array.from(readyPlayers)`. -/
def gameStateUpdate (s : GameState) : Snapshot :=
  { players := s.players
    currentWord := s.currentWord
    impostorId := s.impostorId
    stage := s.stage
    currentQuestioner := s.players[s.currentQuestionIndex]?
    readyPlayers := s.readyPlayers
    votes := s.votes
    currentQuestionIndex := s.currentQuestionIndex }

/-- The server with its socket layer: the game data, the ids of the connected
sockets, and every `game-state-update` sent so far, in order, each with the
socket it was sent to. -/
structure Server where
  game : GameState
  sockets : List String
  delivered : List (String × Snapshot)
  deriving DecidableEq, Repr

/-- The call `io.emit('game-state-update', payload)`: one event for every
connected socket. -/
def ioEmit (sv : Server) (payload : Snapshot) : Server :=
  { sv with delivered := sv.delivered ++ sv.sockets.map fun id => (id, payload) }

/-- The function `broadcastGameState`. -/
def broadcastGameState (sv : Server) : Server :=
  ioEmit sv (gameStateUpdate sv.game)

/-- The handler of `io.on('connection')`: the new socket alone is sent the
current game data. -/
def onConnection (sv : Server) (socketId : String) : Server :=
  { sv with
    sockets := sv.sockets ++ [socketId]
    delivered := sv.delivered ++ [(socketId, gameStateUpdate sv.game)] }

/-- The request `POST /api/upload` on the server: the broadcast is the last
statement before the success response; the error responses return before it. -/
def postUpload (sv : Server) (name file : Option String) (now : Nat) :
    Except ApiError Player × Server :=
  match apiUpload sv.game name file now with
  | (Except.ok player, g) => (Except.ok player, broadcastGameState { sv with game := g })
  | (Except.error e, g) => (Except.error e, { sv with game := g })

/-- The request `POST /api/ready` on the server: both branches of the round
start test end with a broadcast; a missing id returns before it. -/
def postReady (sv : Server) (playerId : Option String) (wordDraw impostorDraw : UnitDraw) :
    Except ApiError Unit × Server :=
  match apiReady sv.game playerId wordDraw impostorDraw with
  | (Except.ok u, g) => (Except.ok u, broadcastGameState { sv with game := g })
  | (Except.error e, g) => (Except.error e, { sv with game := g })

/-- The request `POST /api/next-stage` on the server: in stage `results` the
function `resetGameState` broadcasts once itself, and the handler always
broadcasts before it responds. -/
def postNextStage (sv : Server) : Except ApiError (Stage × Option Player) × Server :=
  let afterBranch : Server :=
    match sv.game.stage with
    | Stage.results => broadcastGameState { sv with game := resetGameState sv.game }
    | _ => { sv with game := nextStage sv.game }
  let afterBroadcast := broadcastGameState afterBranch
  (Except.ok (afterBroadcast.game.stage,
      afterBroadcast.game.players[afterBroadcast.game.currentQuestionIndex]?),
    afterBroadcast)

/-- The request `POST /api/vote` on the server: the broadcast is the last
statement before the success response; the error responses return before it. -/
def postVote (sv : Server) (voterId votedPlayerId : Option String) :
    Except ApiError (Player × Player) × Server :=
  match apiVote sv.game voterId votedPlayerId with
  | (Except.ok r, g) => (Except.ok r, broadcastGameState { sv with game := g })
  | (Except.error e, g) => (Except.error e, { sv with game := g })

/-- The error responses of `GET /api/player/:name`. -/
inductive PlayerLookupError where
  | playerNameRequired
  | playerNotFound
  deriving DecidableEq, Repr

/-- The request `GET /api/player/:name` on the server. -/
def getPlayer (sv : Server) (name : String) : Except PlayerLookupError Player × Server :=
  if name == "" then (Except.error PlayerLookupError.playerNameRequired, sv)
  else
    match sv.game.players.find? fun p => p.name == name with
    | some player => (Except.ok player, sv)
    | Option.none => (Except.error PlayerLookupError.playerNotFound, sv)

/-- The request `GET /api/game-state` on the server. -/
def getGameState (sv : Server) : Snapshot × Server :=
  (gameStateUpdate sv.game, sv)

/-! ## Sequences of requests -/

/-- The game data after `k` consecutive calls of `/api/next-stage`. -/
def advanceTimes : Nat → GameState → GameState
  | 0, s => s
  | k + 1, s => (apiNextStage (advanceTimes k s)).2

/-- The clock readings a sequence of requests supplies to `/api/upload`. -/
def clockReadings : List Op → List Nat
  | [] => []
  | Op.registerPlayer _ _ now :: ops => now :: clockReadings ops
  | Op.markReady _ _ _ :: ops => clockReadings ops
  | Op.advanceStage :: ops => clockReadings ops
  | Op.castVote _ _ :: ops => clockReadings ops

/-- Whether every `/api/vote` request of the sequence `ops`, run from the state
`s`, arrives while the stage is `voting`. -/
def votesOnlyInVoting : GameState → List Op → Bool
  | _, [] => true
  | s, Op.castVote voterId votedPlayerId :: ops =>
    s.stage == Stage.voting && votesOnlyInVoting (step s (Op.castVote voterId votedPlayerId)) ops
  | s, op :: ops => votesOnlyInVoting (step s op) ops

/-! ## Invariants and specification predicates -/

/-- In stages `asking` and `voting` the roster has at least three players and
`impostorId` is the id of one of them. -/
def RoundInv (s : GameState) : Prop :=
  (s.stage = Stage.asking ∨ s.stage = Stage.voting) →
    3 ≤ s.players.length ∧ ∃ imp, s.impostorId = some imp ∧ imp ∈ s.players.map Player.id

/-- The most voted candidate as the specification words it: among the entries
whose count is maximal, the one created first. -/
def firstCreatedAtMax (votes : List (String × VoteData)) : Option String :=
  (votes.find? fun e => votes.all fun x => x.2.count ≤ e.2.count).map Prod.fst

/-- The stage changes the specification permits, each with the operation that
may cause it; any operation may leave the stage as it is. -/
def permittedTransition : Stage → Op → Stage → Bool
  | Stage.waiting, Op.markReady _ _ _, Stage.asking => true
  | Stage.asking, Op.advanceStage, Stage.voting => true
  | Stage.voting, Op.castVote _ _, Stage.results => true
  | Stage.voting, Op.advanceStage, Stage.results => true
  | Stage.results, Op.advanceStage, Stage.waiting => true
  | before, _, after => before == after

/-- Either id is absent (`MissingFields` of the specification). -/
def MissingFields (voterId votedPlayerId : Option String) : Prop :=
  falsy voterId = true ∨ falsy votedPlayerId = true

/-- The voter votes for themself (`SelfVote` of the specification). -/
def SelfVote (voterId votedPlayerId : Option String) : Prop :=
  voterId = votedPlayerId

/-- The voter is in `votedPlayers` (`AlreadyVoted` of the specification). -/
def AlreadyVoted (s : GameState) (voterId : Option String) : Prop :=
  ∃ x, voterId = some x ∧ x ∈ s.votedPlayers

/-- Either id is not the id of a roster member (`UnknownPlayer` of the
specification). -/
def UnknownPlayer (s : GameState) (voterId votedPlayerId : Option String) : Prop :=
  (∀ p ∈ s.players, some p.id ≠ voterId) ∨ (∀ p ∈ s.players, some p.id ≠ votedPlayerId)

/-- From `sv` to `sv'` a broadcast took place: the connected sockets are the
same, at least one `game-state-update` was sent to every connected socket,
and everything sent went to a connected socket and carries the game data of
`sv'`. -/
def Broadcasts (sv sv' : Server) : Prop :=
  sv'.sockets = sv.sockets ∧
  ∃ extra, sv'.delivered = sv.delivered ++ extra ∧
    (∀ id ∈ sv.sockets, (id, gameStateUpdate sv'.game) ∈ extra) ∧
    (∀ d ∈ extra, d.1 ∈ sv.sockets ∧ d.2 = gameStateUpdate sv'.game)

/-- A well-formed tally entry, as the specification words it: the key is the id
of a roster member, the count is at least 1 and equals the length of the voter
list, and every listed voter is the name of a roster member whose id differs
from the key. -/
def EntryWellFormed (players : List Player) (e : String × VoteData) : Prop :=
  (∃ p ∈ players, p.id = e.1) ∧ 1 ≤ e.2.count ∧ e.2.count = e.2.voters.length ∧
  ∀ n ∈ e.2.voters, ∃ p ∈ players, p.name = n ∧ p.id ≠ e.1

/-! ## Scenarios -/

/-- The draw `0`: it selects index `0`. -/
def drawZero : UnitDraw := ⟨fun _ => 0, fun _ h => h⟩

/-- The draw `0.5`, whose product with `n` is exact: it selects index `n / 2`,
the third of five words and the second of three players. -/
def drawHalf : UnitDraw := ⟨fun n => n / 2, fun _ h => Nat.div_lt_self h (Nat.lt_succ_self 1)⟩

/-- Three registrations `P1`, `P2`, `P3` at consecutive clock readings, all
three players ready (the round starts with the draws `w` and `i`), and three
calls of `/api/next-stage` that lead to stage `voting`. -/
def roundToVoting (w i : UnitDraw) : List Op :=
  [ Op.registerPlayer (some "P1") (some "p1.png") 1700000000001,
    Op.registerPlayer (some "P2") (some "p2.png") 1700000000002,
    Op.registerPlayer (some "P3") (some "p3.png") 1700000000003,
    Op.markReady (some "1700000000001") w i,
    Op.markReady (some "1700000000002") w i,
    Op.markReady (some "1700000000003") w i,
    Op.advanceStage,
    Op.advanceStage,
    Op.advanceStage ]

/-- The votes of the end-to-end scenario: `P1` votes `P2`, `P2` votes `P3`,
`P3` votes `P2`. -/
def fullCoverageVotes : List Op :=
  [ Op.castVote (some "1700000000001") (some "1700000000002"),
    Op.castVote (some "1700000000002") (some "1700000000003"),
    Op.castVote (some "1700000000003") (some "1700000000002") ]

/-- Three registered players in stage `waiting`, `P1` and `P2` ready. -/
def waitingTwoReady : GameState :=
  run
    [ Op.registerPlayer (some "P1") (some "p1.png") 1700000000001,
      Op.registerPlayer (some "P2") (some "p2.png") 1700000000002,
      Op.registerPlayer (some "P3") (some "p3.png") 1700000000003,
      Op.markReady (some "1700000000001") drawZero drawZero,
      Op.markReady (some "1700000000002") drawZero drawZero ]

/-- Three registered players in stage `waiting`, two of whom have voted. -/
def waitingTwoVotes : GameState :=
  run
    [ Op.registerPlayer (some "P1") (some "p1.png") 1700000000001,
      Op.registerPlayer (some "P2") (some "p2.png") 1700000000002,
      Op.registerPlayer (some "P3") (some "p3.png") 1700000000003,
      Op.castVote (some "1700000000001") (some "1700000000002"),
      Op.castVote (some "1700000000002") (some "1700000000003") ]

/-- A state in stage `voting` in which nobody has voted: the round of
`roundToVoting` with `P2` the impostor. -/
def votingNoVotes : GameState :=
  run (roundToVoting drawHalf drawHalf)

/-- A state in stage `voting` with one vote cast: the round of `roundToVoting`
with `P2` the impostor, after `P1` voted for `P2`. -/
def votingWithOneVote : GameState :=
  run (roundToVoting drawHalf drawHalf ++
    [Op.castVote (some "1700000000001") (some "1700000000002")])

/-- The end-to-end scenario after the third vote: stage `results`, every
player has voted once. -/
def afterFullCoverage : GameState :=
  run (roundToVoting drawHalf drawHalf ++ fullCoverageVotes)

/-- The end-to-end scenario up to stage `results`, after which `P1` and `P2`
ask for the next round as the client does from the results screen. -/
def resultsTwoReady : GameState :=
  run (roundToVoting drawHalf drawHalf ++ fullCoverageVotes ++
    [ Op.markReady (some "1700000000001") drawZero drawZero,
      Op.markReady (some "1700000000002") drawZero drawZero ])

/-- The state before the last vote of the end-to-end scenario: stage `voting`,
`P1` and `P2` have voted. -/
def votingTwoVotes : GameState :=
  run (roundToVoting drawHalf drawHalf ++
    [ Op.castVote (some "1700000000001") (some "1700000000002"),
      Op.castVote (some "1700000000002") (some "1700000000003") ])

/-- The state right after the round start of `roundToVoting`: stage `asking`,
`currentQuestionIndex` 0, three players. -/
def roundStarted : GameState :=
  (apiReady waitingTwoReady (some "1700000000003") drawHalf drawHalf).2

/-- Three registered players in stage `waiting`, nobody ready. -/
def threeRegistered : GameState :=
  run
    [ Op.registerPlayer (some "P1") (some "p1.png") 1700000000001,
      Op.registerPlayer (some "P2") (some "p2.png") 1700000000002,
      Op.registerPlayer (some "P3") (some "p3.png") 1700000000003 ]

/-- Two registrations within the same millisecond. -/
def sameMillisecond : List Op :=
  [ Op.registerPlayer (some "P1") (some "p1.png") 1700000000001,
    Op.registerPlayer (some "P2") (some "p2.png") 1700000000001 ]

/-- A server with two connected sockets in the state before the last vote of
the end-to-end scenario. -/
def serverTwoSockets : Server :=
  { game := votingTwoVotes, sockets := ["socketA", "socketB"], delivered := [] }

/-- Five registrations `P1` .. `P5` at consecutive clock readings, all five
players ready, and five calls of `/api/next-stage` that lead to stage
`voting`. -/
def fivePlayersToVoting : List Op :=
  [ Op.registerPlayer (some "P1") (some "p1.png") 1700000000001,
    Op.registerPlayer (some "P2") (some "p2.png") 1700000000002,
    Op.registerPlayer (some "P3") (some "p3.png") 1700000000003,
    Op.registerPlayer (some "P4") (some "p4.png") 1700000000004,
    Op.registerPlayer (some "P5") (some "p5.png") 1700000000005,
    Op.markReady (some "1700000000001") drawZero drawZero,
    Op.markReady (some "1700000000002") drawZero drawZero,
    Op.markReady (some "1700000000003") drawZero drawZero,
    Op.markReady (some "1700000000004") drawZero drawZero,
    Op.markReady (some "1700000000005") drawZero drawZero,
    Op.advanceStage,
    Op.advanceStage,
    Op.advanceStage,
    Op.advanceStage,
    Op.advanceStage ]

/-- Votes that give `A = P1` and `B = P2` two votes each, the entry of `A`
created first: `P3` votes `A`, `P4` votes `B`, `P5` votes `A`, `P1` votes `B`. -/
def tieAThenB : List Op :=
  fivePlayersToVoting ++
    [ Op.castVote (some "1700000000003") (some "1700000000001"),
      Op.castVote (some "1700000000004") (some "1700000000002"),
      Op.castVote (some "1700000000005") (some "1700000000001"),
      Op.castVote (some "1700000000001") (some "1700000000002") ]

/-- Votes that give `A = P1` and `B = P2` two votes each, the entry of `B`
created first: `P3` votes `B`, `P4` votes `A`, `P1` votes `B`, `P5` votes `A`. -/
def tieBThenA : List Op :=
  fivePlayersToVoting ++
    [ Op.castVote (some "1700000000003") (some "1700000000002"),
      Op.castVote (some "1700000000004") (some "1700000000001"),
      Op.castVote (some "1700000000001") (some "1700000000002"),
      Op.castVote (some "1700000000005") (some "1700000000001") ]

/-! ## Frame lemmas -/

theorem reachable_foldl (ops : List Op) : ∀ s, Reachable s → Reachable (ops.foldl step s) := by
  induction ops with
  | nil => intro s h; exact h
  | cons op ops ih => intro s h; exact ih _ (Reachable.step s op h)

theorem reachable_run (ops : List Op) : Reachable (run ops) :=
  reachable_foldl ops initialState Reachable.init

theorem map_id_map (f : Player → Player) (hf : ∀ p, (f p).id = p.id) (l : List Player) :
    (l.map f).map Player.id = l.map Player.id := by
  simp [List.map_map, Function.comp_def, hf]

theorem map_name_map (f : Player → Player) (hf : ∀ p, (f p).name = p.name) (l : List Player) :
    (l.map f).map Player.name = l.map Player.name := by
  simp [List.map_map, Function.comp_def, hf]

theorem floorMul_lt (r : UnitDraw) (n : Nat) (hn : 0 < n) : r.floorMul n < n :=
  r.lt n hn

theorem apiVote_players (s : GameState) (v c : Option String) :
    (apiVote s v c).2.players = s.players := by
  simp only [apiVote]
  split_ifs <;> first | rfl | (split <;> rfl)

theorem apiVote_impostorId (s : GameState) (v c : Option String) :
    (apiVote s v c).2.impostorId = s.impostorId := by
  simp only [apiVote]
  split_ifs <;> first | rfl | (split <;> rfl)

theorem apiVote_stage (s : GameState) (v c : Option String) :
    (apiVote s v c).2.stage = s.stage ∨ (apiVote s v c).2.stage = Stage.results := by
  simp only [apiVote]
  split_ifs <;> first | exact Or.inl rfl | (split <;> first | exact Or.inl rfl | exact Or.inr rfl)

/-- A falsy `playerId` is rejected and the state is returned as it was. -/
theorem apiReady_error (s : GameState) (playerId : Option String) (w i : UnitDraw)
    (h : falsy playerId = true) :
    apiReady s playerId w i = (Except.error ApiError.playerIdRequired, s) := by
  simp [apiReady, h]

theorem apiReady_start (s : GameState) (playerId : Option String) (w i : UnitDraw)
    (h : falsy playerId = false)
    (hc : (setAdd s.readyPlayers (playerId.getD "")).length = s.players.length ∧
      3 ≤ s.players.length) :
    (apiReady s playerId w i).2 =
      { players := (s.players.map fun p =>
            if p.id == playerId.getD "" then { p with highlight := Highlight.ready } else p).map
          fun p =>
            { p with
              word :=
                if some p.id = ((s.players.map fun p =>
                    if p.id == playerId.getD "" then { p with highlight := Highlight.ready }
                    else p)[i.floorMul s.players.length]?).map Player.id
                then some impostorWord else words[w.floorMul words.length]?
              highlight := Highlight.none }
        currentWord := words[w.floorMul words.length]?
        impostorId := ((s.players.map fun p =>
            if p.id == playerId.getD "" then { p with highlight := Highlight.ready }
            else p)[i.floorMul s.players.length]?).map Player.id
        stage := Stage.asking
        currentQuestionIndex := 0
        readyPlayers := []
        votes := []
        votedPlayers := [] } := by
  simp only [apiReady, h, List.length_map]
  rw [if_neg (by simp), if_pos hc]

theorem apiReady_noStart (s : GameState) (playerId : Option String) (w i : UnitDraw)
    (h : falsy playerId = false)
    (hc : ¬((setAdd s.readyPlayers (playerId.getD "")).length = s.players.length ∧
      3 ≤ s.players.length)) :
    (apiReady s playerId w i).2 =
      { s with
        readyPlayers := setAdd s.readyPlayers (playerId.getD "")
        players := s.players.map fun p =>
          if p.id == playerId.getD "" then { p with highlight := Highlight.ready } else p } := by
  simp only [apiReady, h, List.length_map]
  rw [if_neg (by simp), if_neg hc]

theorem apiReady_cases (s : GameState) (playerId : Option String) (w i : UnitDraw) :
    (apiReady s playerId w i).2 = s ∨
    (∃ f : Player → Player, (∀ p, (f p).id = p.id ∧ (f p).name = p.name ∧
        (f p).score = p.score ∧ (f p).photoUrl = p.photoUrl) ∧
      (apiReady s playerId w i).2.players = s.players.map f) := by
  cases h : falsy playerId with
  | true => left; rw [apiReady_error s playerId w i h]
  | false =>
    right
    by_cases hc : (setAdd s.readyPlayers (playerId.getD "")).length = s.players.length ∧
        3 ≤ s.players.length
    · rw [apiReady_start s playerId w i h hc]
      refine ⟨_, ?_, List.map_map _ _ _⟩
      intro p
      by_cases hp : p.id = playerId.getD "" <;> simp [Function.comp, hp]
    · rw [apiReady_noStart s playerId w i h hc]
      refine ⟨_, ?_, rfl⟩
      intro p
      by_cases hp : p.id = playerId.getD "" <;> simp [hp]

theorem nextStage_players (s : GameState) :
    ∃ f : Player → Player, (∀ p, (f p).id = p.id ∧ (f p).name = p.name ∧
        (f p).photoUrl = p.photoUrl) ∧
      (nextStage s).players = s.players.map f := by
  unfold nextStage
  split
  · exact ⟨id, fun p => ⟨rfl, rfl, rfl⟩, by simp⟩
  · dsimp only
    split_ifs
    · refine ⟨_, ?_, List.map_map _ _ _⟩
      intro p
      by_cases hp : some p.id = s.impostorId <;> simp [Function.comp, hp]
    · refine ⟨_, ?_, List.map_map _ _ _⟩
      intro p
      by_cases hp : some p.id = s.impostorId <;> simp [Function.comp, hp]
  · exact ⟨fun p => { p with
        word := Option.none
        highlight := if p.id ∈ s.readyPlayers then Highlight.ready else Highlight.none },
      fun p => ⟨rfl, rfl, rfl⟩, rfl⟩
  · exact ⟨id, fun p => ⟨rfl, rfl, rfl⟩, by simp⟩

theorem apiUpload_cases (s : GameState) (name file : Option String) (now : Nat) :
    ((∃ e, (apiUpload s name file now).1 = Except.error e) ∧ (apiUpload s name file now).2 = s) ∨
    (∃ n f, name = some n ∧ file = some f ∧ n ≠ "" ∧ (∀ p ∈ s.players, p.name ≠ n) ∧
      (apiUpload s name file now).1 = Except.ok (newPlayer n f now) ∧
      (apiUpload s name file now).2 = { s with players := s.players ++ [newPlayer n f now] }) := by
  unfold apiUpload
  split
  · rename_i n f
    split_ifs with h0
    · exact Or.inl ⟨⟨_, rfl⟩, rfl⟩
    · split
      · exact Or.inl ⟨⟨_, rfl⟩, rfl⟩
      · rename_i hfind
        right
        refine ⟨n, f, rfl, rfl, ?_, ?_, rfl, rfl⟩
        · simpa using h0
        · intro p hp
          have := List.find?_eq_none.mp hfind p hp
          simpa using this
  · exact Or.inl ⟨⟨_, rfl⟩, rfl⟩

/-! ## Invariants of the reachable states -/

theorem step_names (s : GameState) (op : Op) :
    (step s op).players.map Player.name = s.players.map Player.name ∨
    ∃ n f now, (∀ p ∈ s.players, p.name ≠ n) ∧
      (step s op).players = s.players ++ [newPlayer n f now] := by
  cases op with
  | registerPlayer name file now =>
    rcases apiUpload_cases s name file now with ⟨_, h⟩ | ⟨n, f, _, _, _, hn, _, h⟩
    · left; simp only [step, h]
    · right; exact ⟨n, f, now, hn, by simp only [step, h]⟩
  | markReady playerId w i =>
    left
    rcases apiReady_cases s playerId w i with h | ⟨f, hf, h⟩
    · simp only [step, h]
    · simp only [step, h]
      exact map_name_map f (fun p => (hf p).2.1) _
  | advanceStage =>
    left
    obtain ⟨f, hf, h⟩ := nextStage_players s
    simp only [step, apiNextStage, h]
    exact map_name_map f (fun p => (hf p).2.1) _
  | castVote v c =>
    left
    simp only [step, apiVote_players]

theorem reachable_names_nodup (s : GameState) (h : Reachable s) :
    (s.players.map Player.name).Nodup := by
  induction h with
  | init => simp [initialState]
  | step s op _ ih =>
    rcases step_names s op with h | ⟨n, f, now, hn, h⟩
    · rw [h]; exact ih
    · rw [h, List.map_append, List.nodup_append]
      refine ⟨ih, by simp, ?_⟩
      intro a ha hb
      simp only [List.map_cons, List.map_nil, List.mem_singleton] at hb
      obtain ⟨p, hp, rfl⟩ := List.mem_map.mp ha
      exact hn p hp (by simpa [newPlayer] using hb)

theorem reachable_roundInv (s : GameState) (h : Reachable s) : RoundInv s := by
  induction h with
  | init => intro h; simp [initialState] at h
  | step s op _ ih =>
    cases op with
    | registerPlayer name file now =>
      rcases apiUpload_cases s name file now with ⟨_, h⟩ | ⟨n, f, _, _, _, _, _, h⟩
      · simp only [step, h]; exact ih
      · simp only [step, h]
        intro hs
        obtain ⟨h3, imp, hi, hm⟩ := ih hs
        refine ⟨by simp only [List.length_append]; omega, imp, hi, ?_⟩
        simp only [List.map_append, List.mem_append]
        exact Or.inl hm
    | markReady playerId w i =>
      cases hf : falsy playerId with
      | true => simp only [step, apiReady_error s playerId w i hf]; exact ih
      | false =>
        by_cases hc : (setAdd s.readyPlayers (playerId.getD "")).length = s.players.length ∧
            3 ≤ s.players.length
        · simp only [step, apiReady_start s playerId w i hf hc]
          intro _
          have hlt := floorMul_lt i s.players.length (by omega)
          refine ⟨by simpa using hc.2, ?_⟩
          simp only [List.getElem?_map, List.map_map]
          rw [List.getElem?_eq_getElem hlt]
          refine ⟨_, rfl, ?_⟩
          simp only [Option.map_some', List.mem_map, Function.comp]
          refine ⟨s.players[i.floorMul s.players.length], List.getElem_mem _, ?_⟩
          split_ifs <;> rfl
        · simp only [step, apiReady_noStart s playerId w i hf hc]
          intro hs
          obtain ⟨h3, imp, hi, hm⟩ := ih hs
          refine ⟨by simpa using h3, imp, hi, ?_⟩
          rw [map_id_map]
          · exact hm
          · intro p; split_ifs <;> rfl
    | advanceStage =>
      intro hs
      simp only [step, apiNextStage] at hs ⊢
      unfold nextStage at hs ⊢
      split at hs
      · rename_i ha
        simp only [ha]
        exact ih (Or.inl ha)
      · simp at hs
      · simp [resetGameState] at hs
      · rename_i hw
        simp [hw] at hs
    | castVote v c =>
      intro hs
      simp only [step] at hs ⊢
      rw [apiVote_players, apiVote_impostorId]
      rcases apiVote_stage s v c with h | h
      · rw [h] at hs; exact ih hs
      · rw [h] at hs; simp at hs

/-! ## C1: outcome of a round in which everybody votes -/

/-- C1 (defect of the code): in the end-to-end scenario (three players, round
started, three questions, `P1` votes `P2`, `P2` votes `P3`, `P3` votes `P2`)
the last vote moves the stage to `results` with `P2` the most voted player,
but the outcome is not applied. With `P2` the impostor nobody is `caught` and
`P1`, `P3` still have score 0; with `P1` the impostor nobody is `winner` and
`P1` still has score 0. The next `/api/next-stage` only resets the round, so
the scores stay 0. -/
theorem C1_full_coverage_outcome_not_applied :
    (run (roundToVoting drawHalf drawHalf)).stage = Stage.voting ∧
    (run (roundToVoting drawHalf drawHalf ++ fullCoverageVotes)).stage = Stage.results ∧
    (run (roundToVoting drawHalf drawHalf ++ fullCoverageVotes)).impostorId =
      some "1700000000002" ∧
    mostVotedPlayerId (run (roundToVoting drawHalf drawHalf ++ fullCoverageVotes)).votes =
      some "1700000000002" ∧
    (run (roundToVoting drawHalf drawHalf ++ fullCoverageVotes)).players.map Player.highlight =
      [Highlight.none, Highlight.none, Highlight.none] ∧
    (run (roundToVoting drawHalf drawHalf ++ fullCoverageVotes)).players.map Player.score =
      [0, 0, 0] ∧
    (run (roundToVoting drawZero drawZero ++ fullCoverageVotes)).stage = Stage.results ∧
    (run (roundToVoting drawZero drawZero ++ fullCoverageVotes)).impostorId =
      some "1700000000001" ∧
    mostVotedPlayerId (run (roundToVoting drawZero drawZero ++ fullCoverageVotes)).votes =
      some "1700000000002" ∧
    (run (roundToVoting drawZero drawZero ++ fullCoverageVotes)).players.map Player.highlight =
      [Highlight.none, Highlight.none, Highlight.none] ∧
    (run (roundToVoting drawZero drawZero ++ fullCoverageVotes)).players.map Player.score =
      [0, 0, 0] ∧
    (run (roundToVoting drawHalf drawHalf ++ fullCoverageVotes ++ [Op.advanceStage])).stage =
      Stage.waiting ∧
    (run (roundToVoting drawHalf drawHalf ++ fullCoverageVotes ++
      [Op.advanceStage])).players.map Player.score = [0, 0, 0] := by
  decide

/-! ## The scan for the most voted player -/

theorem scanVotes_of_le (es : List (String × VoteData)) :
    ∀ acc : Option String × Nat, (∀ e ∈ es, e.2.count ≤ acc.2) → scanVotes es acc = acc := by
  induction es with
  | nil => intro acc _; rfl
  | cons x xs ih =>
    intro acc h
    have hx : ¬ x.2.count > acc.2 := Nat.not_lt.mpr (h x (List.mem_cons_self _ _))
    simp only [scanVotes, List.foldl_cons, if_neg hx]
    exact ih acc fun e he => h e (List.mem_cons_of_mem _ he)

theorem scanVotes_of_lt (es : List (String × VoteData)) :
    ∀ acc : Option String × Nat, (∃ e ∈ es, acc.2 < e.2.count) →
      ∃ pre e post, es = pre ++ e :: post ∧ scanVotes es acc = (some e.1, e.2.count) ∧
        acc.2 < e.2.count ∧ (∀ x ∈ pre, x.2.count < e.2.count) ∧
        (∀ x ∈ post, x.2.count ≤ e.2.count) := by
  induction es with
  | nil => intro acc h; obtain ⟨e, he, _⟩ := h; cases he
  | cons x xs ih =>
    intro acc h
    by_cases hx : x.2.count > acc.2
    · have hstep : scanVotes (x :: xs) acc = scanVotes xs (some x.1, x.2.count) := by
        simp only [scanVotes, List.foldl_cons, if_pos hx]
      by_cases hmore : ∃ e ∈ xs, x.2.count < e.2.count
      · obtain ⟨pre, e, post, hes, hscan, hlt, hpre, hpost⟩ := ih (some x.1, x.2.count) hmore
        refine ⟨x :: pre, e, post, by rw [hes]; rfl, by rw [hstep, hscan], ?_, ?_, hpost⟩
        · exact Nat.lt_trans hx hlt
        · intro y hy
          rcases List.mem_cons.mp hy with rfl | hy
          · exact hlt
          · exact hpre y hy
      · have hle : ∀ e ∈ xs, e.2.count ≤ x.2.count := by
          intro e he
          exact Nat.not_lt.mp fun hlt => hmore ⟨e, he, hlt⟩
        refine ⟨[], x, xs, rfl, ?_, hx, by simp, hle⟩
        rw [hstep]
        exact scanVotes_of_le xs (some x.1, x.2.count) hle
    · have hstep : scanVotes (x :: xs) acc = scanVotes xs acc := by
        simp only [scanVotes, List.foldl_cons, if_neg hx]
      obtain ⟨e, he, hlt⟩ := h
      have hexs : e ∈ xs := by
        rcases List.mem_cons.mp he with rfl | he
        · exact absurd hlt hx
        · exact he
      obtain ⟨pre, e', post, hes, hscan, hlt', hpre, hpost⟩ := ih acc ⟨e, hexs, hlt⟩
      refine ⟨x :: pre, e', post, by rw [hes]; rfl, by rw [hstep, hscan], hlt', ?_, hpost⟩
      intro y hy
      rcases List.mem_cons.mp hy with rfl | hy
      · exact Nat.lt_of_le_of_lt (Nat.not_lt.mp hx) hlt'
      · exact hpre y hy

theorem objectEntries_perm (votes : List (String × VoteData)) :
    (objectEntries votes).Perm votes := by
  unfold objectEntries
  exact ((List.perm_insertionSort indexLE _).append_right _).trans
    (List.filter_append_perm _ votes)

theorem objectEntries_of_no_index (votes : List (String × VoteData))
    (h : ∀ e ∈ votes, arrayIndex e.1 = Option.none) : objectEntries votes = votes := by
  unfold objectEntries
  have h1 : votes.filter (fun e => (arrayIndex e.1).isSome) = [] := by
    rw [List.filter_eq_nil_iff]
    intro e he
    simp [h e he]
  have h2 : votes.filter (fun e => !(arrayIndex e.1).isSome) = votes := by
    rw [List.filter_eq_self]
    intro e he
    simp [h e he]
  rw [h1, h2]
  rfl

/-- The most voted player of a tally with a positive count: an entry of
maximal count, the first such in the enumeration order. -/
theorem mostVoted_spec (votes : List (String × VoteData)) (hne : votes ≠ [])
    (hpos : ∀ e ∈ votes, 1 ≤ e.2.count) :
    ∃ pre e post, objectEntries votes = pre ++ e :: post ∧
      mostVotedPlayerId votes = some e.1 ∧ e ∈ votes ∧
      (∀ x ∈ votes, x.2.count ≤ e.2.count) ∧ (∀ x ∈ pre, x.2.count < e.2.count) := by
  have hperm := objectEntries_perm votes
  obtain ⟨x, hx⟩ := List.exists_mem_of_ne_nil votes hne
  have hex : ∃ e ∈ objectEntries votes,
      ((Option.none, 0) : Option String × Nat).2 < e.2.count :=
    ⟨x, hperm.mem_iff.mpr hx, hpos x hx⟩
  obtain ⟨pre, e, post, hes, hscan, _, hpre, hpost⟩ :=
    scanVotes_of_lt (objectEntries votes) (Option.none, 0) hex
  refine ⟨pre, e, post, hes, by simp only [mostVotedPlayerId, hscan], ?_, ?_, hpre⟩
  · exact hperm.mem_iff.mp (by rw [hes]; simp)
  · intro y hy
    have hy' : y ∈ pre ++ e :: post := by rw [← hes]; exact hperm.mem_iff.mpr hy
    rcases List.mem_append.mp hy' with hy' | hy'
    · exact Nat.le_of_lt (hpre y hy')
    · rcases List.mem_cons.mp hy' with rfl | hy'
      · exact Nat.le_refl _
      · exact hpost y hy'

theorem recordVote_pos (votes : List (String × VoteData)) (key name : String)
    (h : ∀ e ∈ votes, e.1 ≠ key → 1 ≤ e.2.count) :
    ∀ e ∈ recordVote votes key name, 1 ≤ e.2.count := by
  intro e he
  obtain ⟨x, hx, rfl⟩ := List.mem_map.mp he
  by_cases hk : x.1 = key
  · simp [hk]
  · simpa [hk] using h x hx hk

theorem apiVote_votes_pos (s : GameState) (v c : Option String)
    (h : ∀ e ∈ s.votes, 1 ≤ e.2.count) : ∀ e ∈ (apiVote s v c).2.votes, 1 ≤ e.2.count := by
  have key : ∀ name : String, ∀ e ∈ recordVote
      (match lookupVotes s.votes (c.getD "") with
        | Option.none => s.votes ++ [(c.getD "", { count := 0, voters := [] })]
        | some _ => s.votes) (c.getD "") name, 1 ≤ e.2.count := by
    intro name
    apply recordVote_pos
    intro e he hk
    split at he
    · rcases List.mem_append.mp he with he | he
      · exact h e he
      · simp only [List.mem_singleton] at he
        subst he
        exact absurd rfl hk
    · exact h e he
  simp only [apiVote]
  split_ifs <;> first | exact h | (split <;> first | exact h | exact key _)

theorem step_votes_pos (s : GameState) (op : Op) (h : ∀ e ∈ s.votes, 1 ≤ e.2.count) :
    ∀ e ∈ (step s op).votes, 1 ≤ e.2.count := by
  cases op with
  | registerPlayer name file now =>
    rcases apiUpload_cases s name file now with ⟨_, h'⟩ | ⟨n, f, _, _, _, _, _, h'⟩ <;>
      simp only [step, h'] <;> exact h
  | markReady playerId w i =>
    cases hf : falsy playerId with
    | true => simp only [step, apiReady_error s playerId w i hf]; exact h
    | false =>
      by_cases hc : (setAdd s.readyPlayers (playerId.getD "")).length = s.players.length ∧
          3 ≤ s.players.length
      · simp only [step, apiReady_start s playerId w i hf hc]
        intro e he; cases he
      · simp only [step, apiReady_noStart s playerId w i hf hc]
        exact h
  | advanceStage =>
    simp only [step, apiNextStage]
    unfold nextStage
    split
    · exact h
    · exact h
    · intro e he; simp [resetGameState] at he
    · exact h
  | castVote v c => exact apiVote_votes_pos s v c h

theorem reachable_votes_pos (s : GameState) (h : Reachable s) :
    ∀ e ∈ s.votes, 1 ≤ e.2.count := by
  induction h with
  | init => intro e he; cases he
  | step s op _ ih => exact step_votes_pos s op ih

theorem filter_id_length_one (l : List Player) (hd : (l.map Player.id).Nodup) (imp : String)
    (hm : imp ∈ l.map Player.id) : (l.filter fun p => p.id = imp).length = 1 := by
  induction l with
  | nil => simp at hm
  | cons x xs ih =>
    simp only [List.map_cons, List.nodup_cons] at hd
    by_cases hx : x.id = imp
    · have hnone : xs.filter (fun p => decide (p.id = imp)) = [] := by
        rw [List.filter_eq_nil_iff]
        intro p hp
        simp only [decide_eq_true_eq]
        intro hpe
        exact hd.1 (List.mem_map.mpr ⟨p, hp, by rw [hpe, hx]⟩)
      simp [List.filter_cons, hx, hnone]
    · have hm' : imp ∈ xs.map Player.id := by
        simp only [List.map_cons, List.mem_cons] at hm
        rcases hm with hm | hm
        · exact absurd hm.symm hx
        · exact hm
      simp [List.filter_cons, hx, ih hd.2 hm']

/-! ## C2: scoring by `/api/next-stage` in stage `voting` -/

theorem nextStage_voting (s : GameState) (hs : s.stage = Stage.voting) (imp : String)
    (hi : s.impostorId = some imp) (m : Option String) (hm : mostVotedPlayerId s.votes = m) :
    (nextStage s).stage = Stage.results ∧
    (nextStage s).players = s.players.map fun p =>
      if m = some imp then
        if p.id = imp then { p with highlight := Highlight.caught }
        else { p with score := p.score + 100, highlight := Highlight.none }
      else
        if p.id = imp then { p with score := p.score + 100, highlight := Highlight.winner }
        else { p with highlight := Highlight.none } := by
  subst hm
  refine ⟨by simp [nextStage, hs], ?_⟩
  unfold nextStage
  simp only [hs, hi, List.map_map, Option.some.injEq]
  split_ifs with h1
  · apply List.map_congr_left
    intro p _
    by_cases hp : p.id = imp <;> simp [Function.comp, hp]
  · apply List.map_congr_left
    intro p _
    by_cases hp : p.id = imp <;> simp [Function.comp, hp]

/-- C2: in a reachable state in stage `voting` with a non-empty tally and
pairwise distinct roster ids, `/api/next-stage` sets the stage to `results`;
the most voted player `m` exists and has the maximal count of the tally, the
impostor `imp` is exactly one roster member, the roster keeps its length and
order, and position by position: if `m = imp` the impostor gets highlight
`caught` with its score unchanged and every other player gets score `+ 100`
and highlight `none`; if `m ≠ imp` the impostor gets score `+ 100` and
highlight `winner` and every other player keeps its score and gets highlight
`none`. -/
theorem C2_scoring_on_advance_from_voting (s : GameState) (hr : Reachable s)
    (hs : s.stage = Stage.voting) (hv : s.votes ≠ [])
    (hd : (s.players.map Player.id).Nodup) :
    (apiNextStage s).2.stage = Stage.results ∧
    ∃ m imp, mostVotedPlayerId s.votes = some m ∧
      (∃ d, (m, d) ∈ s.votes ∧ ∀ e ∈ s.votes, e.2.count ≤ d.count) ∧
      s.impostorId = some imp ∧
      (s.players.filter fun p => p.id = imp).length = 1 ∧
      (apiNextStage s).2.players.length = s.players.length ∧
      ∀ (k : Nat) (p : Player), s.players[k]? = some p →
        ∃ q : Player, (apiNextStage s).2.players[k]? = some q ∧
          q.id = p.id ∧ q.name = p.name ∧ q.photoUrl = p.photoUrl ∧ q.word = p.word ∧
          (m = imp →
            (p.id = imp → q.highlight = Highlight.caught ∧ q.score = p.score) ∧
            (p.id ≠ imp → q.score = p.score + 100 ∧ q.highlight = Highlight.none)) ∧
          (m ≠ imp →
            (p.id = imp → q.score = p.score + 100 ∧ q.highlight = Highlight.winner) ∧
            (p.id ≠ imp → q.score = p.score ∧ q.highlight = Highlight.none)) := by
  obtain ⟨_, imp, hi, himp⟩ := reachable_roundInv s hr (Or.inr hs)
  obtain ⟨_, e, _, _, hmost, he, hmax, _⟩ :=
    mostVoted_spec s.votes hv (reachable_votes_pos s hr)
  obtain ⟨hstage, hplayers⟩ := nextStage_voting s hs imp hi (some e.1) hmost
  refine ⟨hstage, e.1, imp, hmost, ⟨e.2, he, hmax⟩, hi,
    filter_id_length_one s.players hd imp himp, ?_, ?_⟩
  · simp only [apiNextStage, hplayers, List.length_map]
  · intro k p hk
    simp only [apiNextStage, hplayers, List.getElem?_map, hk, Option.map_some',
      Option.some.injEq, exists_eq_left']
    by_cases hme : e.1 = imp <;> by_cases hp : p.id = imp <;> simp [hme, hp]

/-- C2 at a concrete state: the round with `P2` the impostor, in stage `voting`
after `P1` voted for `P2`. -/
theorem C2_scoring_on_advance_from_voting_witness :
    Reachable votingWithOneVote ∧ votingWithOneVote.stage = Stage.voting ∧
    votingWithOneVote.votes ≠ [] ∧ (votingWithOneVote.players.map Player.id).Nodup ∧
    ((apiNextStage votingWithOneVote).2.stage = Stage.results ∧
    ∃ m imp, mostVotedPlayerId votingWithOneVote.votes = some m ∧
      (∃ d, (m, d) ∈ votingWithOneVote.votes ∧
        ∀ e ∈ votingWithOneVote.votes, e.2.count ≤ d.count) ∧
      votingWithOneVote.impostorId = some imp ∧
      (votingWithOneVote.players.filter fun p => p.id = imp).length = 1 ∧
      (apiNextStage votingWithOneVote).2.players.length = votingWithOneVote.players.length ∧
      ∀ (k : Nat) (p : Player), votingWithOneVote.players[k]? = some p →
        ∃ q : Player, (apiNextStage votingWithOneVote).2.players[k]? = some q ∧
          q.id = p.id ∧ q.name = p.name ∧ q.photoUrl = p.photoUrl ∧ q.word = p.word ∧
          (m = imp →
            (p.id = imp → q.highlight = Highlight.caught ∧ q.score = p.score) ∧
            (p.id ≠ imp → q.score = p.score + 100 ∧ q.highlight = Highlight.none)) ∧
          (m ≠ imp →
            (p.id = imp → q.score = p.score + 100 ∧ q.highlight = Highlight.winner) ∧
            (p.id ≠ imp → q.score = p.score ∧ q.highlight = Highlight.none))) :=
  ⟨reachable_run _, by decide, by decide, by decide,
    C2_scoring_on_advance_from_voting votingWithOneVote (reachable_run _) (by decide)
      (by decide) (by decide)⟩

/-! ## The most voted player of a tally without array-index keys -/

/-- When no key of the tally is an array index, `Object.entries` enumerates the
tally in creation order, and the most voted player is the first created entry
of maximal count. -/
theorem mostVoted_first_created (votes : List (String × VoteData)) (hne : votes ≠ [])
    (hpos : ∀ e ∈ votes, 1 ≤ e.2.count)
    (hno : ∀ x ∈ votes, arrayIndex x.1 = Option.none) :
    ∃ pre e post, votes = pre ++ e :: post ∧ mostVotedPlayerId votes = some e.1 ∧
      (∀ x ∈ votes, x.2.count ≤ e.2.count) ∧ (∀ x ∈ pre, x.2.count < e.2.count) ∧
      mostVotedPlayerId votes = firstCreatedAtMax votes := by
  obtain ⟨pre, e, post, hes, hmost, he, hmax, hpre⟩ := mostVoted_spec votes hne hpos
  rw [objectEntries_of_no_index votes hno] at hes
  have hfind : votes.find? (fun e => votes.all fun x => x.2.count ≤ e.2.count) = some e := by
    rw [List.find?_eq_some]
    refine ⟨?_, pre, post, hes, ?_⟩
    · simpa using hmax
    · intro a ha
      have hlt := hpre a ha
      simp only [List.all_eq_true, decide_eq_true_eq, Bool.not_eq_true', ← Bool.not_eq_true]
      intro hall
      exact absurd (hall e he) (Nat.not_le.mpr hlt)
  refine ⟨pre, e, post, hes, hmost, hmax, hpre, ?_⟩
  rw [hmost, firstCreatedAtMax, hfind]
  rfl

/-! ## C4: `/api/next-stage` in stage `voting` with an empty tally -/

/-- C4 (counterexample): in stage `voting` with no vote cast, `/api/next-stage`
gives the impostor `P2` score 100 and highlight `winner`. -/
theorem C4_no_votes_counterexample :
    Reachable votingNoVotes ∧ votingNoVotes.stage = Stage.voting ∧
    votingNoVotes.votes = [] ∧ votingNoVotes.impostorId = some "1700000000002" ∧
    votingNoVotes.players.map Player.score = [0, 0, 0] ∧
    (apiNextStage votingNoVotes).2.players.map Player.score = [0, 100, 0] ∧
    (apiNextStage votingNoVotes).2.players.map Player.highlight =
      [Highlight.none, Highlight.winner, Highlight.none] ∧
    ¬ ((apiNextStage votingNoVotes).2.players.map Player.score =
        votingNoVotes.players.map Player.score ∧
      ∀ p ∈ (apiNextStage votingNoVotes).2.players, p.highlight = Highlight.none) :=
  ⟨reachable_run _, by decide, by decide, by decide, by decide, by decide, by decide,
    by decide⟩

/-- C4 (amended): in a reachable state in stage `voting` with an empty tally,
`/api/next-stage` sets the stage to `results`; no player is most voted, the
impostor is a roster member, every player whose id is `impostorId` gets score
`+ 100` and highlight `winner`, and every other player keeps its score and
gets highlight `none`. -/
theorem C4_no_votes_impostor_wins (s : GameState) (hr : Reachable s)
    (hs : s.stage = Stage.voting) (hv : s.votes = []) :
    (apiNextStage s).2.stage = Stage.results ∧
    mostVotedPlayerId s.votes = Option.none ∧
    ∃ imp, s.impostorId = some imp ∧ imp ∈ s.players.map Player.id ∧
      (apiNextStage s).2.players.length = s.players.length ∧
      ∀ (k : Nat) (p : Player), s.players[k]? = some p →
        ∃ q : Player, (apiNextStage s).2.players[k]? = some q ∧
          q.id = p.id ∧ q.name = p.name ∧ q.photoUrl = p.photoUrl ∧ q.word = p.word ∧
          (p.id = imp → q.score = p.score + 100 ∧ q.highlight = Highlight.winner) ∧
          (p.id ≠ imp → q.score = p.score ∧ q.highlight = Highlight.none) := by
  obtain ⟨_, imp, hi, himp⟩ := reachable_roundInv s hr (Or.inr hs)
  have hmost : mostVotedPlayerId s.votes = Option.none := by rw [hv]; rfl
  obtain ⟨hstage, hplayers⟩ := nextStage_voting s hs imp hi Option.none hmost
  refine ⟨hstage, hmost, imp, hi, himp, ?_, ?_⟩
  · simp only [apiNextStage, hplayers, List.length_map]
  · intro k p hk
    simp only [apiNextStage, hplayers, List.getElem?_map, hk, Option.map_some',
      Option.some.injEq, exists_eq_left']
    by_cases hp : p.id = imp <;> simp [hp]

/-- C4 at a concrete state: the round with `P2` the impostor, in stage `voting`
with no vote cast. -/
theorem C4_no_votes_impostor_wins_witness :
    Reachable votingNoVotes ∧ votingNoVotes.stage = Stage.voting ∧
    votingNoVotes.votes = [] ∧
    ((apiNextStage votingNoVotes).2.stage = Stage.results ∧
    mostVotedPlayerId votingNoVotes.votes = Option.none ∧
    ∃ imp, votingNoVotes.impostorId = some imp ∧ imp ∈ votingNoVotes.players.map Player.id ∧
      (apiNextStage votingNoVotes).2.players.length = votingNoVotes.players.length ∧
      ∀ (k : Nat) (p : Player), votingNoVotes.players[k]? = some p →
        ∃ q : Player, (apiNextStage votingNoVotes).2.players[k]? = some q ∧
          q.id = p.id ∧ q.name = p.name ∧ q.photoUrl = p.photoUrl ∧ q.word = p.word ∧
          (p.id = imp → q.score = p.score + 100 ∧ q.highlight = Highlight.winner) ∧
          (p.id ≠ imp → q.score = p.score ∧ q.highlight = Highlight.none)) :=
  ⟨reachable_run _, by decide, by decide,
    C4_no_votes_impostor_wins votingNoVotes (reachable_run _) (by decide) (by decide)⟩

/-! ## C5: stage transitions -/

/-- C5 (counterexample): `/api/ready` moves the stage from `results` to
`asking` when the third player asks for the next round, and `/api/vote` moves
the stage from `waiting` to `results` when the third player votes; neither
change is among the permitted transitions. -/
theorem C5_transition_counterexample :
    (Reachable resultsTwoReady ∧ resultsTwoReady.stage = Stage.results ∧
      (step resultsTwoReady
        (Op.markReady (some "1700000000003") drawZero drawZero)).stage = Stage.asking ∧
      permittedTransition Stage.results
        (Op.markReady (some "1700000000003") drawZero drawZero) Stage.asking = false) ∧
    (Reachable waitingTwoVotes ∧ waitingTwoVotes.stage = Stage.waiting ∧
      (step waitingTwoVotes
        (Op.castVote (some "1700000000003") (some "1700000000001"))).stage = Stage.results ∧
      permittedTransition Stage.waiting
        (Op.castVote (some "1700000000003") (some "1700000000001")) Stage.results = false) :=
  ⟨⟨reachable_run _, by decide, by decide, by decide⟩,
    ⟨reachable_run _, by decide, by decide, by decide⟩⟩

theorem nextStage_stage (s : GameState) :
    (nextStage s).stage = s.stage ∨
    (s.stage = Stage.asking ∧ (nextStage s).stage = Stage.voting) ∨
    (s.stage = Stage.voting ∧ (nextStage s).stage = Stage.results) ∨
    (s.stage = Stage.results ∧ (nextStage s).stage = Stage.waiting) := by
  unfold nextStage
  split
  · rename_i h
    dsimp only
    split_ifs
    · exact Or.inr (Or.inl ⟨h, rfl⟩)
    · exact Or.inl h.symm
  · rename_i h; exact Or.inr (Or.inr (Or.inl ⟨h, rfl⟩))
  · rename_i h; exact Or.inr (Or.inr (Or.inr ⟨h, rfl⟩))
  · exact Or.inl rfl

/-- C5 (amended): for every state and every operation the stage after the
operation equals the stage before, or the operation is `/api/ready` and the
new stage is `asking` (from any stage), or the operation is `/api/next-stage`
and the change is `asking → voting`, `voting → results` or
`results → waiting`, or the operation is `/api/vote` and the new stage is
`results` (from any stage). Registration never changes the stage. -/
theorem C5_stage_transitions (s : GameState) (op : Op) :
    (step s op).stage = s.stage ∨
    ((∃ playerId w i, op = Op.markReady playerId w i) ∧ (step s op).stage = Stage.asking) ∨
    (op = Op.advanceStage ∧ s.stage = Stage.asking ∧ (step s op).stage = Stage.voting) ∨
    (op = Op.advanceStage ∧ s.stage = Stage.voting ∧ (step s op).stage = Stage.results) ∨
    (op = Op.advanceStage ∧ s.stage = Stage.results ∧ (step s op).stage = Stage.waiting) ∨
    ((∃ voterId votedPlayerId, op = Op.castVote voterId votedPlayerId) ∧
      (step s op).stage = Stage.results) := by
  cases op with
  | registerPlayer name file now =>
    left
    rcases apiUpload_cases s name file now with ⟨_, h⟩ | ⟨n, f, _, _, _, _, _, h⟩ <;>
      simp only [step, h]
  | markReady playerId w i =>
    cases hf : falsy playerId with
    | true => left; simp only [step, apiReady_error s playerId w i hf]
    | false =>
      by_cases hc : (setAdd s.readyPlayers (playerId.getD "")).length = s.players.length ∧
          3 ≤ s.players.length
      · right; left
        exact ⟨⟨playerId, w, i, rfl⟩, by simp only [step, apiReady_start s playerId w i hf hc]⟩
      · left; simp only [step, apiReady_noStart s playerId w i hf hc]
  | advanceStage =>
    rcases nextStage_stage s with h | h | h | h
    · exact Or.inl h
    · exact Or.inr (Or.inr (Or.inl ⟨rfl, h⟩))
    · exact Or.inr (Or.inr (Or.inr (Or.inl ⟨rfl, h⟩)))
    · exact Or.inr (Or.inr (Or.inr (Or.inr (Or.inl ⟨rfl, h⟩))))
  | castVote v c =>
    rcases apiVote_stage s v c with h | h
    · exact Or.inl h
    · exact Or.inr (Or.inr (Or.inr (Or.inr (Or.inr ⟨⟨v, c, rfl⟩, h⟩))))

/-! ## C6, C7: round start -/

theorem falsy_some (pid : String) (hp : pid ≠ "") : falsy (some pid) = false := by
  simp [falsy, hp]

/-- The state after a round start, in terms of the selected word and impostor. -/
theorem apiReady_start_spec (s : GameState) (pid : String) (hp : pid ≠ "") (w i : UnitDraw)
    (hc : (setAdd s.readyPlayers pid).length = s.players.length ∧ 3 ≤ s.players.length) :
    ∃ word imp, word ∈ words ∧ imp ∈ s.players.map Player.id ∧
      (apiReady s (some pid) w i).2 =
        { players := s.players.map fun p =>
            { p with
              word := if p.id = imp then some impostorWord else some word
              highlight := Highlight.none }
          currentWord := some word
          impostorId := some imp
          stage := Stage.asking
          currentQuestionIndex := 0
          readyPlayers := []
          votes := []
          votedPlayers := [] } := by
  have hw : w.floorMul words.length < words.length := floorMul_lt w _ (by decide)
  have hi : i.floorMul s.players.length < s.players.length := floorMul_lt i _ (by omega)
  refine ⟨words[w.floorMul words.length], s.players[i.floorMul s.players.length].id,
    List.getElem_mem _, List.mem_map.mpr ⟨_, List.getElem_mem _, rfl⟩, ?_⟩
  rw [apiReady_start s (some pid) w i (falsy_some pid hp) hc]
  have hidx : ((s.players.map fun p =>
      if p.id == (some pid).getD "" then { p with highlight := Highlight.ready }
      else p)[i.floorMul s.players.length]?).map Player.id =
      some s.players[i.floorMul s.players.length].id := by
    rw [List.getElem?_map, List.getElem?_eq_getElem hi]
    simp only [Option.map_some']
    split_ifs <;> rfl
  rw [hidx, List.getElem?_eq_getElem hw, List.map_map]
  congr 1
  apply List.map_congr_left
  intro p _
  by_cases h1 : p.id = pid <;> simp [Function.comp, h1]

/-- C6: for every state, every non-empty `playerId` and every pair of draws,
`/api/ready` starts a round exactly when, with `playerId` added to
`readyPlayers`, the size of `readyPlayers` equals the roster size and the
roster size is at least 3. If so, the stage is `asking`, `currentWord` is a
vocabulary word, `impostorId` is the id of a roster member and `readyPlayers`
is cleared; if not, the stage, `currentWord`, `impostorId`, tally and voter set
are unchanged and `readyPlayers` is the non-empty set with `playerId` added. In
particular a roster of fewer than three players never starts a round. -/
theorem C6_round_start_trigger (s : GameState) (pid : String) (hp : pid ≠ "")
    (w i : UnitDraw) :
    (((setAdd s.readyPlayers pid).length = s.players.length ∧ 3 ≤ s.players.length) →
      (apiReady s (some pid) w i).2.stage = Stage.asking ∧
      (∃ word ∈ words, (apiReady s (some pid) w i).2.currentWord = some word) ∧
      (∃ p ∈ s.players, (apiReady s (some pid) w i).2.impostorId = some p.id) ∧
      (apiReady s (some pid) w i).2.readyPlayers = []) ∧
    (¬ ((setAdd s.readyPlayers pid).length = s.players.length ∧ 3 ≤ s.players.length) →
      (apiReady s (some pid) w i).2.stage = s.stage ∧
      (apiReady s (some pid) w i).2.currentWord = s.currentWord ∧
      (apiReady s (some pid) w i).2.impostorId = s.impostorId ∧
      (apiReady s (some pid) w i).2.votes = s.votes ∧
      (apiReady s (some pid) w i).2.votedPlayers = s.votedPlayers ∧
      (apiReady s (some pid) w i).2.currentQuestionIndex = s.currentQuestionIndex ∧
      (apiReady s (some pid) w i).2.readyPlayers = setAdd s.readyPlayers pid ∧
      (apiReady s (some pid) w i).2.readyPlayers ≠ []) ∧
    ((apiReady s (some pid) w i).2.readyPlayers = [] ↔
      ((setAdd s.readyPlayers pid).length = s.players.length ∧ 3 ≤ s.players.length)) ∧
    (s.players.length < 3 →
      (apiReady s (some pid) w i).2.stage = s.stage ∧
      (apiReady s (some pid) w i).2.currentWord = s.currentWord ∧
      (apiReady s (some pid) w i).2.impostorId = s.impostorId) := by
  have hadd : setAdd s.readyPlayers pid ≠ [] := by
    unfold setAdd
    split_ifs with hm
    · exact List.ne_nil_of_mem hm
    · simp
  have hstart : ((setAdd s.readyPlayers pid).length = s.players.length ∧
      3 ≤ s.players.length) →
      (apiReady s (some pid) w i).2.stage = Stage.asking ∧
      (∃ word ∈ words, (apiReady s (some pid) w i).2.currentWord = some word) ∧
      (∃ p ∈ s.players, (apiReady s (some pid) w i).2.impostorId = some p.id) ∧
      (apiReady s (some pid) w i).2.readyPlayers = [] := by
    intro hc
    obtain ⟨word, imp, hword, himp, heq⟩ := apiReady_start_spec s pid hp w i hc
    obtain ⟨p, hpm, hpid⟩ := List.mem_map.mp himp
    rw [heq]
    exact ⟨rfl, ⟨word, hword, rfl⟩, ⟨p, hpm, by rw [hpid]⟩, rfl⟩
  have hno : ¬ ((setAdd s.readyPlayers pid).length = s.players.length ∧
      3 ≤ s.players.length) →
      (apiReady s (some pid) w i).2 =
        { s with
          readyPlayers := setAdd s.readyPlayers pid
          players := s.players.map fun p =>
            if p.id == pid then { p with highlight := Highlight.ready } else p } := by
    intro hc
    exact apiReady_noStart s (some pid) w i (falsy_some pid hp) hc
  refine ⟨hstart, ?_, ?_, ?_⟩
  · intro hc
    rw [hno hc]
    exact ⟨rfl, rfl, rfl, rfl, rfl, rfl, rfl, hadd⟩
  · constructor
    · intro hnil
      by_contra hc
      rw [hno hc] at hnil
      exact hadd hnil
    · intro hc
      exact (hstart hc).2.2.2
  · intro hlt
    have hc : ¬ ((setAdd s.readyPlayers pid).length = s.players.length ∧
        3 ≤ s.players.length) := fun h => absurd h.2 (Nat.not_le.mpr hlt)
    rw [hno hc]
    exact ⟨rfl, rfl, rfl⟩

/-- C6 at a concrete state: `P1` and `P2` are ready and `P3` marks ready, which
starts the round. -/
theorem C6_round_start_trigger_witness :
    "1700000000003" ≠ "" ∧
    ((setAdd waitingTwoReady.readyPlayers "1700000000003").length =
      waitingTwoReady.players.length ∧ 3 ≤ waitingTwoReady.players.length) ∧
    (apiReady waitingTwoReady (some "1700000000003") drawHalf drawHalf).2.stage =
      Stage.asking ∧
    (∃ word ∈ words,
      (apiReady waitingTwoReady (some "1700000000003") drawHalf drawHalf).2.currentWord =
        some word) ∧
    (∃ p ∈ waitingTwoReady.players,
      (apiReady waitingTwoReady (some "1700000000003") drawHalf drawHalf).2.impostorId =
        some p.id) ∧
    (apiReady waitingTwoReady (some "1700000000003") drawHalf drawHalf).2.readyPlayers = [] :=
  ⟨by decide, by decide,
    (C6_round_start_trigger waitingTwoReady "1700000000003" (by decide) drawHalf drawHalf).1
      (by decide)⟩

/-- C7: when `/api/ready` starts a round on a roster with pairwise distinct
ids, then for every pair of draws `currentWord` is one of the five vocabulary
words, exactly one roster member has id `impostorId`, that member's `word` is
the impostor string, every other member's `word` is `currentWord`, and the
impostor string is not a vocabulary word; every highlight is `none`, the stage
is `asking`, `currentQuestionIndex` is 0, `readyPlayers`, `votes` and
`votedPlayers` are empty, and the roster keeps its order, ids, names, photo
references and scores. -/
theorem C7_role_assignment (s : GameState) (pid : String) (hp : pid ≠ "") (w i : UnitDraw)
    (hc : (setAdd s.readyPlayers pid).length = s.players.length ∧ 3 ≤ s.players.length)
    (hd : (s.players.map Player.id).Nodup) :
    ∃ word imp, word ∈ words ∧ words.length = 5 ∧ impostorWord ∉ words ∧
      (apiReady s (some pid) w i).2.currentWord = some word ∧
      (apiReady s (some pid) w i).2.impostorId = some imp ∧
      ((apiReady s (some pid) w i).2.players.filter fun p => p.id = imp).length = 1 ∧
      (∀ p ∈ (apiReady s (some pid) w i).2.players,
        (p.id = imp → p.word = some impostorWord) ∧
        (p.id ≠ imp → p.word = some word) ∧
        p.highlight = Highlight.none) ∧
      (apiReady s (some pid) w i).2.stage = Stage.asking ∧
      (apiReady s (some pid) w i).2.currentQuestionIndex = 0 ∧
      (apiReady s (some pid) w i).2.readyPlayers = [] ∧
      (apiReady s (some pid) w i).2.votes = [] ∧
      (apiReady s (some pid) w i).2.votedPlayers = [] ∧
      (apiReady s (some pid) w i).2.players.map Player.id = s.players.map Player.id ∧
      (apiReady s (some pid) w i).2.players.map Player.name = s.players.map Player.name ∧
      (apiReady s (some pid) w i).2.players.map Player.photoUrl =
        s.players.map Player.photoUrl ∧
      (apiReady s (some pid) w i).2.players.map Player.score = s.players.map Player.score := by
  obtain ⟨word, imp, hword, himp, heq⟩ := apiReady_start_spec s pid hp w i hc
  have hids : ((s.players.map fun p : Player =>
      ({ p with
        word := if p.id = imp then some impostorWord else some word
        highlight := Highlight.none } : Player)).map Player.id) = s.players.map Player.id := by
    simp [List.map_map, Function.comp_def]
  refine ⟨word, imp, hword, by decide, by decide, ?_⟩
  rw [heq]
  refine ⟨rfl, rfl, ?_, ?_, rfl, rfl, rfl, rfl, rfl, hids, ?_, ?_, ?_⟩
  · exact filter_id_length_one _ (by rw [hids]; exact hd) imp (by rw [hids]; exact himp)
  · intro p hpm
    obtain ⟨q, _, rfl⟩ := List.mem_map.mp hpm
    by_cases hq : q.id = imp <;> simp [hq]
  · simp [List.map_map, Function.comp_def]
  · simp [List.map_map, Function.comp_def]
  · simp [List.map_map, Function.comp_def]

/-- C7 at a concrete state: `P1` and `P2` are ready and `P3` marks ready with
both draws `1/2`. -/
theorem C7_role_assignment_witness :
    "1700000000003" ≠ "" ∧
    ((setAdd waitingTwoReady.readyPlayers "1700000000003").length =
      waitingTwoReady.players.length ∧ 3 ≤ waitingTwoReady.players.length) ∧
    (waitingTwoReady.players.map Player.id).Nodup ∧
    ∃ word imp, word ∈ words ∧ words.length = 5 ∧ impostorWord ∉ words ∧
      (apiReady waitingTwoReady (some "1700000000003") drawHalf drawHalf).2.currentWord =
        some word ∧
      (apiReady waitingTwoReady (some "1700000000003") drawHalf drawHalf).2.impostorId =
        some imp ∧
      ((apiReady waitingTwoReady (some "1700000000003") drawHalf drawHalf).2.players.filter
        fun p => p.id = imp).length = 1 ∧
      (∀ p ∈ (apiReady waitingTwoReady (some "1700000000003") drawHalf drawHalf).2.players,
        (p.id = imp → p.word = some impostorWord) ∧
        (p.id ≠ imp → p.word = some word) ∧
        p.highlight = Highlight.none) ∧
      (apiReady waitingTwoReady (some "1700000000003") drawHalf drawHalf).2.stage =
        Stage.asking ∧
      (apiReady waitingTwoReady (some "1700000000003") drawHalf
        drawHalf).2.currentQuestionIndex = 0 ∧
      (apiReady waitingTwoReady (some "1700000000003") drawHalf drawHalf).2.readyPlayers =
        [] ∧
      (apiReady waitingTwoReady (some "1700000000003") drawHalf drawHalf).2.votes = [] ∧
      (apiReady waitingTwoReady (some "1700000000003") drawHalf drawHalf).2.votedPlayers =
        [] ∧
      (apiReady waitingTwoReady (some "1700000000003") drawHalf drawHalf).2.players.map
        Player.id = waitingTwoReady.players.map Player.id ∧
      (apiReady waitingTwoReady (some "1700000000003") drawHalf drawHalf).2.players.map
        Player.name = waitingTwoReady.players.map Player.name ∧
      (apiReady waitingTwoReady (some "1700000000003") drawHalf drawHalf).2.players.map
        Player.photoUrl = waitingTwoReady.players.map Player.photoUrl ∧
      (apiReady waitingTwoReady (some "1700000000003") drawHalf drawHalf).2.players.map
        Player.score = waitingTwoReady.players.map Player.score :=
  ⟨by decide, by decide, by decide,
    C7_role_assignment waitingTwoReady "1700000000003" (by decide) drawHalf drawHalf
      (by decide) (by decide)⟩

/-! ## C8: unique names -/

/-- C8: in every reachable state no two roster members have the same name, and
a call of `/api/upload` whose name is the name of a roster member fails and
leaves the whole state unchanged; the error is "name exists" when a photo is
supplied and the name is not empty. -/
theorem C8_name_uniqueness (s : GameState) (hr : Reachable s) :
    (s.players.map Player.name).Nodup ∧
    ∀ (name file : Option String) (now : Nat), (∃ p ∈ s.players, name = some p.name) →
      (∃ e, (apiUpload s name file now).1 = Except.error e) ∧
      (apiUpload s name file now).2 = s ∧
      (file ≠ Option.none → name ≠ some "" →
        (apiUpload s name file now).1 = Except.error ApiError.nameExists) := by
  refine ⟨reachable_names_nodup s hr, ?_⟩
  intro name file now hdup
  obtain ⟨p, hp, rfl⟩ := hdup
  have hfail : (∃ e, (apiUpload s (some p.name) file now).1 = Except.error e) ∧
      (apiUpload s (some p.name) file now).2 = s := by
    rcases apiUpload_cases s (some p.name) file now with h | ⟨n, f, hn, _, _, hall, _, _⟩
    · exact h
    · cases hn
      exact absurd rfl (hall p hp)
  refine ⟨hfail.1, hfail.2, ?_⟩
  intro hfile hname
  cases file with
  | none => exact absurd rfl hfile
  | some f =>
    have hne : ¬ p.name = "" := fun h => hname (by rw [h])
    cases hfind : s.players.find? (fun q => q.name == p.name) with
    | none =>
      have := List.find?_eq_none.mp hfind p hp
      simp at this
    | some q => simp [apiUpload, hne, hfind]

/-- C8 at a concrete state: with `P1`, `P2`, `P3` registered, a registration
under the name `P1` fails and changes nothing. -/
theorem C8_name_uniqueness_witness :
    Reachable waitingTwoReady ∧ (waitingTwoReady.players.map Player.name).Nodup ∧
    (∃ p ∈ waitingTwoReady.players, some "P1" = some p.name) ∧
    (∃ e, (apiUpload waitingTwoReady (some "P1") (some "again.png") 1700000000009).1 =
      Except.error e) ∧
    (apiUpload waitingTwoReady (some "P1") (some "again.png") 1700000000009).2 =
      waitingTwoReady :=
  ⟨reachable_run _, (C8_name_uniqueness waitingTwoReady (reachable_run _)).1, by decide,
    ((C8_name_uniqueness waitingTwoReady (reachable_run _)).2 (some "P1") (some "again.png")
      1700000000009 (by decide)).1,
    ((C8_name_uniqueness waitingTwoReady (reachable_run _)).2 (some "P1") (some "again.png")
      1700000000009 (by decide)).2.1⟩

/-! ## C9: rejected votes -/

theorem not_falsy_iff (v : Option String) : ¬ falsy v = true ↔ ∃ x, v = some x ∧ x ≠ "" := by
  cases v with
  | none => simp [falsy]
  | some x => simp [falsy]

theorem find_id_none_iff (l : List Player) (x : String) :
    l.find? (fun p => p.id == x) = Option.none ↔ ∀ p ∈ l, some p.id ≠ some x := by
  simp [List.find?_eq_none]

/-- The response of `/api/vote`, validation by validation. -/
theorem apiVote_result (s : GameState) (vid cid : String) (hv : vid ≠ "") (hc : cid ≠ "") :
    (vid = cid → apiVote s (some vid) (some cid) =
      (Except.error ApiError.cannotVoteForYourself, s)) ∧
    (vid ≠ cid → vid ∈ s.votedPlayers → apiVote s (some vid) (some cid) =
      (Except.error ApiError.alreadyVoted, s)) ∧
    (vid ≠ cid → vid ∉ s.votedPlayers →
      ((∀ p ∈ s.players, some p.id ≠ some vid) ∨ (∀ p ∈ s.players, some p.id ≠ some cid)) →
      apiVote s (some vid) (some cid) = (Except.error ApiError.invalidPlayerIds, s)) ∧
    (vid ≠ cid → vid ∉ s.votedPlayers →
      ¬ ((∀ p ∈ s.players, some p.id ≠ some vid) ∨ (∀ p ∈ s.players, some p.id ≠ some cid)) →
      ∃ voter votedPlayer, (apiVote s (some vid) (some cid)).1 =
        Except.ok (voter, votedPlayer)) := by
  have hm : ¬ (falsy (some vid) = true ∨ falsy (some cid) = true) := by
    simp [falsy, hv, hc]
  refine ⟨?_, ?_, ?_, ?_⟩
  · intro h
    simp [apiVote, falsy, hv, hc, h]
  · intro h1 h2
    simp [apiVote, falsy, hv, hc, h1, h2]
  · intro h1 h2 h3
    simp only [apiVote, if_neg hm, Option.getD_some, if_neg h1, if_neg h2]
    rcases h3 with h3 | h3
    · rw [(find_id_none_iff s.players vid).mpr h3]
    · rw [(find_id_none_iff s.players cid).mpr h3]
      split
      · rename_i heq; cases heq
      · rfl
  · intro h1 h2 h3
    simp only [apiVote, if_neg hm, Option.getD_some, if_neg h1, if_neg h2]
    rw [not_or, ← find_id_none_iff, ← find_id_none_iff] at h3
    obtain ⟨a, ha⟩ := Option.ne_none_iff_exists'.mp h3.1
    obtain ⟨b, hb⟩ := Option.ne_none_iff_exists'.mp h3.2
    rw [ha, hb]
    refine ⟨a, b, ?_⟩
    dsimp only
    split_ifs <;> rfl

/-- C9: for every state and every pair of request fields, `/api/vote` fails
exactly when either id is absent, or the two ids are equal, or the voter is in
`votedPlayers`, or either id is not the id of a roster member; the error is
the first that applies in this order; and a failing call leaves the whole
state unchanged. -/
theorem C9_vote_rejection (s : GameState) (voterId votedPlayerId : Option String) :
    ((apiVote s voterId votedPlayerId).1 = Except.error ApiError.voterAndVotedRequired ↔
      MissingFields voterId votedPlayerId) ∧
    ((apiVote s voterId votedPlayerId).1 = Except.error ApiError.cannotVoteForYourself ↔
      ¬ MissingFields voterId votedPlayerId ∧ SelfVote voterId votedPlayerId) ∧
    ((apiVote s voterId votedPlayerId).1 = Except.error ApiError.alreadyVoted ↔
      ¬ MissingFields voterId votedPlayerId ∧ ¬ SelfVote voterId votedPlayerId ∧
        AlreadyVoted s voterId) ∧
    ((apiVote s voterId votedPlayerId).1 = Except.error ApiError.invalidPlayerIds ↔
      ¬ MissingFields voterId votedPlayerId ∧ ¬ SelfVote voterId votedPlayerId ∧
        ¬ AlreadyVoted s voterId ∧ UnknownPlayer s voterId votedPlayerId) ∧
    ((∃ e, (apiVote s voterId votedPlayerId).1 = Except.error e) ↔
      MissingFields voterId votedPlayerId ∨ SelfVote voterId votedPlayerId ∨
        AlreadyVoted s voterId ∨ UnknownPlayer s voterId votedPlayerId) ∧
    ((∃ e, (apiVote s voterId votedPlayerId).1 = Except.error e) →
      (apiVote s voterId votedPlayerId).2 = s) := by
  by_cases hm : MissingFields voterId votedPlayerId
  · have h : apiVote s voterId votedPlayerId =
        (Except.error ApiError.voterAndVotedRequired, s) := by
      unfold MissingFields at hm
      simp only [apiVote, if_pos hm]
    rw [h]
    simp [hm]
  · have hm' := hm
    unfold MissingFields at hm'
    rw [not_or, not_falsy_iff, not_falsy_iff] at hm'
    obtain ⟨⟨vid, rfl, hv⟩, ⟨cid, rfl, hc⟩⟩ := hm'
    obtain ⟨r1, r2, r3, r4⟩ := apiVote_result s vid cid hv hc
    by_cases h1 : vid = cid
    · rw [r1 h1]
      have hm2 : ¬ MissingFields (some cid) (some cid) := h1 ▸ hm
      simp [hm2, SelfVote, h1]
    · by_cases h2 : vid ∈ s.votedPlayers
      · rw [r2 h1 h2]
        simp [hm, SelfVote, AlreadyVoted, h1, h2]
      · by_cases h3 : (∀ p ∈ s.players, some p.id ≠ some vid) ∨
            (∀ p ∈ s.players, some p.id ≠ some cid)
        · rw [r3 h1 h2 h3]
          simp only [hm, SelfVote, AlreadyVoted, UnknownPlayer, Option.some.injEq, h1, h2,
            exists_eq_left', h3]
          simp
        · obtain ⟨a, b, hok⟩ := r4 h1 h2 h3
          rw [hok]
          simp only [hm, SelfVote, AlreadyVoted, UnknownPlayer, Option.some.injEq, h1, h2,
            exists_eq_left', h3]
          simp

/-! ## C10: one vote per voter and round -/

/-- C10 (defect of the code): after the third vote of the end-to-end scenario
`votedPlayers` is cleared while the round is still in stage `results`, so a
second vote of `P1` in the same round is accepted: the name `P1` then occurs
twice in the voter lists and the counts sum to 4 on a roster of 3. -/
theorem C10_second_vote_accepted :
    Reachable afterFullCoverage ∧ afterFullCoverage.stage = Stage.results ∧
    afterFullCoverage.players.length = 3 ∧ afterFullCoverage.votedPlayers = [] ∧
    afterFullCoverage.votes =
      [("1700000000002", { count := 2, voters := ["P1", "P3"] }),
        ("1700000000003", { count := 1, voters := ["P2"] })] ∧
    (apiVote afterFullCoverage (some "1700000000001") (some "1700000000003")).1.isOk =
      true ∧
    (apiVote afterFullCoverage (some "1700000000001") (some "1700000000003")).2.stage =
      Stage.results ∧
    (apiVote afterFullCoverage (some "1700000000001") (some "1700000000003")).2.votes =
      [("1700000000002", { count := 2, voters := ["P1", "P3"] }),
        ("1700000000003", { count := 2, voters := ["P2", "P1"] })] ∧
    (((apiVote afterFullCoverage (some "1700000000001")
      (some "1700000000003")).2.votes.map fun e => e.2.count).sum = 4) ∧
    (((apiVote afterFullCoverage (some "1700000000001")
      (some "1700000000003")).2.votes.map fun e => e.2.voters).flatten.count "P1" = 2) :=
  ⟨reachable_run _, by decide, by decide, by decide, by decide,
    by decide, by decide, by decide, by decide, by decide⟩

/-! ## C11: effect of an accepted vote -/

theorem lookupVotes_cons (x : String × VoteData) (xs : List (String × VoteData))
    (k : String) :
    lookupVotes (x :: xs) k = if x.1 = k then some x.2 else lookupVotes xs k := by
  by_cases hx : x.1 = k <;> simp [lookupVotes, List.find?_cons, hx]

theorem recordVote_cons (x : String × VoteData) (xs : List (String × VoteData))
    (key name : String) :
    recordVote (x :: xs) key name =
      (if x.1 = key then (x.1, { count := x.2.count + 1, voters := x.2.voters ++ [name] })
        else x) :: recordVote xs key name := by
  by_cases hx : x.1 = key <;> simp [recordVote, hx]

theorem lookupVotes_recordVote_self (votes : List (String × VoteData)) (key name : String) :
    lookupVotes (recordVote votes key name) key =
      (lookupVotes votes key).map fun d =>
        { count := d.count + 1, voters := d.voters ++ [name] } := by
  induction votes with
  | nil => rfl
  | cons x xs ih =>
    rw [recordVote_cons, lookupVotes_cons, lookupVotes_cons]
    by_cases hx : x.1 = key
    · simp [hx]
    · simp [hx, ih]

theorem lookupVotes_recordVote_other (votes : List (String × VoteData)) (key name k : String)
    (hk : k ≠ key) : lookupVotes (recordVote votes key name) k = lookupVotes votes k := by
  induction votes with
  | nil => rfl
  | cons x xs ih =>
    rw [recordVote_cons, lookupVotes_cons, lookupVotes_cons, ih]
    by_cases hx : x.1 = key
    · have hxk : ¬ x.1 = k := fun h => hk (h.symm.trans hx)
      have hkk : ¬ key = k := fun h => hk h.symm
      simp [hx, hkk]
    · simp [hx]

theorem lookupVotes_append_new (votes : List (String × VoteData)) (key : String)
    (d : VoteData) (h : lookupVotes votes key = Option.none) :
    lookupVotes (votes ++ [(key, d)]) key = some d := by
  simp only [lookupVotes, Option.map_eq_none'] at h
  simp [lookupVotes, List.find?_append, h]

theorem lookupVotes_append_other (votes : List (String × VoteData)) (key k : String)
    (d : VoteData) (hk : k ≠ key) :
    lookupVotes (votes ++ [(key, d)]) k = lookupVotes votes k := by
  have hkk : ¬ key = k := fun h => hk h.symm
  cases hf : votes.find? (fun e => e.1 == k) with
  | none => simp [lookupVotes, List.find?_append, hf, List.find?_cons, hkk]
  | some e => simp [lookupVotes, List.find?_append, hf]

theorem recordVote_keys (votes : List (String × VoteData)) (key name : String) :
    (recordVote votes key name).map Prod.fst = votes.map Prod.fst := by
  simp only [recordVote, List.map_map]
  apply List.map_congr_left
  intro e _
  by_cases he : e.1 = key <;> simp [he]

/-- The result of `/api/vote` when every validation passes. -/
theorem apiVote_accept (s : GameState) (vid cid : String) (hv : vid ≠ "") (hc : cid ≠ "")
    (h1 : vid ≠ cid) (h2 : vid ∉ s.votedPlayers) (voter votedPlayer : Player)
    (hf1 : s.players.find? (fun p => p.id == vid) = some voter)
    (hf2 : s.players.find? (fun p => p.id == cid) = some votedPlayer) :
    (apiVote s (some vid) (some cid)).1 = Except.ok (voter, votedPlayer) ∧
    (apiVote s (some vid) (some cid)).2.players = s.players ∧
    (apiVote s (some vid) (some cid)).2.currentWord = s.currentWord ∧
    (apiVote s (some vid) (some cid)).2.impostorId = s.impostorId ∧
    (apiVote s (some vid) (some cid)).2.readyPlayers = s.readyPlayers ∧
    (apiVote s (some vid) (some cid)).2.currentQuestionIndex = s.currentQuestionIndex ∧
    (apiVote s (some vid) (some cid)).2.votes =
      recordVote
        (match lookupVotes s.votes cid with
          | Option.none => s.votes ++ [(cid, { count := 0, voters := [] })]
          | some _ => s.votes) cid voter.name ∧
    (((s.votedPlayers ++ [vid]).length = s.players.length →
      (apiVote s (some vid) (some cid)).2.stage = Stage.results ∧
      (apiVote s (some vid) (some cid)).2.votedPlayers = []) ∧
    (¬ (s.votedPlayers ++ [vid]).length = s.players.length →
      (apiVote s (some vid) (some cid)).2.stage = s.stage ∧
      (apiVote s (some vid) (some cid)).2.votedPlayers = s.votedPlayers ++ [vid])) := by
  have hm : ¬ (falsy (some vid) = true ∨ falsy (some cid) = true) := by
    simp [falsy, hv, hc]
  have hadd : setAdd s.votedPlayers vid = s.votedPlayers ++ [vid] := by
    simp [setAdd, h2]
  simp only [apiVote, if_neg hm, Option.getD_some, if_neg h1, if_neg h2, hf1, hf2, hadd]
  by_cases hfull : (s.votedPlayers ++ [vid]).length = s.players.length
  · rw [if_pos hfull]
    exact ⟨rfl, rfl, rfl, rfl, rfl, rfl, rfl, fun _ => ⟨rfl, rfl⟩, fun h => absurd hfull h⟩
  · rw [if_neg hfull]
    exact ⟨rfl, rfl, rfl, rfl, rfl, rfl, rfl, fun h => absurd h hfull, fun _ => ⟨rfl, rfl⟩⟩

/-- C11: when `/api/vote` passes every validation, the voter is the first roster
member with id `voterId`; in the resulting state the entry
`votes[votedPlayerId]` exists, its count is one more than before (1 if the
entry was absent) and its voter list is the previous list with the voter's
name appended; every other entry is unchanged and the keys keep their creation
order (a new key comes last); the roster and the other game data are
unchanged; if `votedPlayers` with the voter added has the size of the roster,
the stage is `results` and `votedPlayers` is empty, otherwise the stage is
unchanged and `votedPlayers` is the previous set with the voter added. -/
theorem C11_accepted_vote (s : GameState) (voterId votedPlayerId : Option String)
    (hok : ¬ (MissingFields voterId votedPlayerId ∨ SelfVote voterId votedPlayerId ∨
      AlreadyVoted s voterId ∨ UnknownPlayer s voterId votedPlayerId)) :
    ∃ vid cid voter votedPlayer, voterId = some vid ∧ votedPlayerId = some cid ∧
      s.players.find? (fun p => p.id == vid) = some voter ∧
      s.players.find? (fun p => p.id == cid) = some votedPlayer ∧
      (apiVote s voterId votedPlayerId).1 = Except.ok (voter, votedPlayer) ∧
      lookupVotes (apiVote s voterId votedPlayerId).2.votes cid =
        some
          { count := ((lookupVotes s.votes cid).map VoteData.count).getD 0 + 1
            voters := ((lookupVotes s.votes cid).map VoteData.voters).getD [] ++ [voter.name] } ∧
      (∀ k, k ≠ cid →
        lookupVotes (apiVote s voterId votedPlayerId).2.votes k = lookupVotes s.votes k) ∧
      (apiVote s voterId votedPlayerId).2.votes.map Prod.fst =
        (if (lookupVotes s.votes cid).isSome then s.votes.map Prod.fst
          else s.votes.map Prod.fst ++ [cid]) ∧
      (apiVote s voterId votedPlayerId).2.players = s.players ∧
      (apiVote s voterId votedPlayerId).2.currentWord = s.currentWord ∧
      (apiVote s voterId votedPlayerId).2.impostorId = s.impostorId ∧
      (apiVote s voterId votedPlayerId).2.readyPlayers = s.readyPlayers ∧
      (apiVote s voterId votedPlayerId).2.currentQuestionIndex = s.currentQuestionIndex ∧
      ((s.votedPlayers ++ [vid]).length = s.players.length →
        (apiVote s voterId votedPlayerId).2.stage = Stage.results ∧
        (apiVote s voterId votedPlayerId).2.votedPlayers = []) ∧
      (¬ (s.votedPlayers ++ [vid]).length = s.players.length →
        (apiVote s voterId votedPlayerId).2.stage = s.stage ∧
        (apiVote s voterId votedPlayerId).2.votedPlayers = s.votedPlayers ++ [vid]) := by
  simp only [not_or] at hok
  obtain ⟨hm, hself, halready, hunknown⟩ := hok
  unfold MissingFields at hm
  rw [not_or, not_falsy_iff, not_falsy_iff] at hm
  obtain ⟨⟨vid, rfl, hv⟩, ⟨cid, rfl, hc⟩⟩ := hm
  have h1 : vid ≠ cid := fun h => hself (by rw [SelfVote, h])
  have h2 : vid ∉ s.votedPlayers := fun h => halready ⟨vid, rfl, h⟩
  unfold UnknownPlayer at hunknown
  rw [not_or, ← find_id_none_iff, ← find_id_none_iff] at hunknown
  obtain ⟨voter, hf1⟩ := Option.ne_none_iff_exists'.mp hunknown.1
  obtain ⟨votedPlayer, hf2⟩ := Option.ne_none_iff_exists'.mp hunknown.2
  obtain ⟨r1, r2, r3, r4, r5, r6, r7, r8, r9⟩ :=
    apiVote_accept s vid cid hv hc h1 h2 voter votedPlayer hf1 hf2
  refine ⟨vid, cid, voter, votedPlayer, rfl, rfl, hf1, hf2, r1, ?_, ?_, ?_, r2, r3, r4, r5,
    r6, r8, r9⟩
  · rw [r7, lookupVotes_recordVote_self]
    cases hl : lookupVotes s.votes cid with
    | none => simp [lookupVotes_append_new s.votes cid _ hl]
    | some d => simp [hl]
  · intro k hk
    rw [r7, lookupVotes_recordVote_other _ _ _ _ hk]
    cases hl : lookupVotes s.votes cid with
    | none => exact lookupVotes_append_other s.votes cid k _ hk
    | some d => rfl
  · rw [r7, recordVote_keys]
    cases hl : lookupVotes s.votes cid with
    | none => simp
    | some d => simp

/-- C11 at the last vote of the end-to-end scenario: after `P1` voted `P2` and
`P2` voted `P3`, the vote of `P3` for `P2` gives `votes[P2]` count 2 and voters
`[P1, P3]`, and the stage is `results`. -/
theorem C11_accepted_vote_witness :
    ¬ (MissingFields (some "1700000000003") (some "1700000000002") ∨
      SelfVote (some "1700000000003") (some "1700000000002") ∨
      AlreadyVoted votingTwoVotes (some "1700000000003") ∨
      UnknownPlayer votingTwoVotes (some "1700000000003") (some "1700000000002")) ∧
    lookupVotes
      (apiVote votingTwoVotes (some "1700000000003") (some "1700000000002")).2.votes
      "1700000000002" = some { count := 2, voters := ["P1", "P3"] } ∧
    (apiVote votingTwoVotes (some "1700000000003") (some "1700000000002")).2.stage =
      Stage.results ∧
    ∃ vid cid voter votedPlayer, some "1700000000003" = some vid ∧
      some "1700000000002" = some cid ∧
      votingTwoVotes.players.find? (fun p => p.id == vid) = some voter ∧
      votingTwoVotes.players.find? (fun p => p.id == cid) = some votedPlayer ∧
      (apiVote votingTwoVotes (some "1700000000003") (some "1700000000002")).1 =
        Except.ok (voter, votedPlayer) :=
  have hok : ¬ (MissingFields (some "1700000000003") (some "1700000000002") ∨
      SelfVote (some "1700000000003") (some "1700000000002") ∨
      AlreadyVoted votingTwoVotes (some "1700000000003") ∨
      UnknownPlayer votingTwoVotes (some "1700000000003") (some "1700000000002")) := by
    simp only [MissingFields, SelfVote, AlreadyVoted, UnknownPlayer, Option.some.injEq,
      exists_eq_left', not_or]
    decide
  ⟨hok, by decide, by decide,
    match C11_accepted_vote votingTwoVotes (some "1700000000003") (some "1700000000002") hok
    with
    | ⟨vid, cid, voter, votedPlayer, h1, h2, h3, h4, h5, _⟩ =>
      ⟨vid, cid, voter, votedPlayer, h1, h2, h3, h4, h5⟩⟩

/-! ## C12: the questioner cycle -/

theorem advanceTimes_asking (s : GameState) (hs : s.stage = Stage.asking)
    (hi : s.currentQuestionIndex = 0) :
    ∀ k, k < s.players.length →
      advanceTimes k s = { s with currentQuestionIndex := k } := by
  intro k
  induction k with
  | zero =>
    intro _
    cases s
    simp only at hi
    subst hi
    rfl
  | succ k ih =>
    intro hk
    have hmod : (k + 1) % s.players.length = k + 1 := Nat.mod_eq_of_lt hk
    have hne : ¬ k + 1 = 0 := Nat.succ_ne_zero k
    rw [advanceTimes, ih (Nat.lt_of_succ_lt hk)]
    simp only [apiNextStage, nextStage, hs, hmod, if_neg hne]

/-- C12: from a state in stage `asking` with `currentQuestionIndex = 0` and a
roster of `n ≥ 3` players, the `k`-th consecutive call of `/api/next-stage`
for `1 ≤ k ≤ n - 1` keeps the stage `asking` and sets `currentQuestionIndex`
to `k`, and the `n`-th call sets `currentQuestionIndex` to 0 and the stage to
`voting`; the roster is unchanged throughout, so the questioner after `k`
calls is the roster member at position `k`, and each call responds with the
resulting stage and `players[currentQuestionIndex]`. -/
theorem C12_questioner_cycle (s : GameState) (hs : s.stage = Stage.asking)
    (hi : s.currentQuestionIndex = 0) (hn : 3 ≤ s.players.length) :
    (∀ k, 1 ≤ k → k ≤ s.players.length - 1 →
      (advanceTimes k s).stage = Stage.asking ∧
      (advanceTimes k s).currentQuestionIndex = k ∧
      (advanceTimes k s).players = s.players ∧
      (apiNextStage (advanceTimes (k - 1) s)).1 = Except.ok (Stage.asking, s.players[k]?)) ∧
    (advanceTimes s.players.length s).stage = Stage.voting ∧
    (advanceTimes s.players.length s).currentQuestionIndex = 0 ∧
    (advanceTimes s.players.length s).players = s.players ∧
    (apiNextStage (advanceTimes (s.players.length - 1) s)).1 =
      Except.ok (Stage.voting, s.players[0]?) ∧
    (∀ t : GameState, (apiNextStage t).1 =
      Except.ok ((apiNextStage t).2.stage,
        (apiNextStage t).2.players[(apiNextStage t).2.currentQuestionIndex]?)) := by
  have hlast : advanceTimes (s.players.length - 1) s =
      { s with currentQuestionIndex := s.players.length - 1 } :=
    advanceTimes_asking s hs hi _ (by omega)
  have hsucc : s.players.length = (s.players.length - 1) + 1 := by omega
  have hmod : (s.players.length - 1 + 1) % s.players.length = 0 := by
    rw [← hsucc]; exact Nat.mod_self _
  have hfinal : (apiNextStage (advanceTimes (s.players.length - 1) s)) =
      (Except.ok (Stage.voting, s.players[0]?),
        { s with currentQuestionIndex := 0, stage := Stage.voting }) := by
    rw [hlast]
    simp only [apiNextStage, nextStage, hs, hmod, if_true]
  have hn' : advanceTimes s.players.length s =
      { s with currentQuestionIndex := 0, stage := Stage.voting } := by
    conv_lhs => rw [hsucc]
    rw [advanceTimes, hfinal]
  refine ⟨?_, by rw [hn'], by rw [hn'], by rw [hn'], by rw [hfinal], fun t => rfl⟩
  intro k hk1 hk2
  have hk : k < s.players.length := by omega
  have hprev : advanceTimes (k - 1) s = { s with currentQuestionIndex := k - 1 } :=
    advanceTimes_asking s hs hi _ (by omega)
  have hmodk : (k - 1 + 1) % s.players.length = k := by
    rw [Nat.sub_add_cancel hk1]; exact Nat.mod_eq_of_lt hk
  have hne : ¬ k = 0 := by omega
  rw [advanceTimes_asking s hs hi k hk, hprev]
  refine ⟨hs, rfl, rfl, ?_⟩
  simp only [apiNextStage, nextStage, hs, hmodk, if_neg hne]

/-- C12 at the round of the end-to-end scenario: three calls cycle the
questioner through `P2`, `P3` and back to `P1`, where the stage is `voting`. -/
theorem C12_questioner_cycle_witness :
    roundStarted.stage = Stage.asking ∧ roundStarted.currentQuestionIndex = 0 ∧
    3 ≤ roundStarted.players.length ∧
    ((advanceTimes 1 roundStarted).stage = Stage.asking ∧
      (advanceTimes 1 roundStarted).currentQuestionIndex = 1) ∧
    ((advanceTimes 2 roundStarted).stage = Stage.asking ∧
      (advanceTimes 2 roundStarted).currentQuestionIndex = 2) ∧
    (advanceTimes roundStarted.players.length roundStarted).stage = Stage.voting ∧
    (advanceTimes roundStarted.players.length roundStarted).currentQuestionIndex = 0 :=
  ⟨by decide, by decide, by decide,
    ⟨((C12_questioner_cycle roundStarted (by decide) (by decide) (by decide)).1 1
        (by decide) (by decide)).1,
      ((C12_questioner_cycle roundStarted (by decide) (by decide) (by decide)).1 1
        (by decide) (by decide)).2.1⟩,
    ⟨((C12_questioner_cycle roundStarted (by decide) (by decide) (by decide)).1 2
        (by decide) (by decide)).1,
      ((C12_questioner_cycle roundStarted (by decide) (by decide) (by decide)).1 2
        (by decide) (by decide)).2.1⟩,
    (C12_questioner_cycle roundStarted (by decide) (by decide) (by decide)).2.1,
    (C12_questioner_cycle roundStarted (by decide) (by decide) (by decide)).2.2.1⟩

/-! ## C13: `/api/ready` with an id that is not in the roster -/

/-- C13 (defect of the code): `/api/ready` does not look the id up in the
roster. With `P1`, `P2`, `P3` registered, a call with the unknown id `ghost1`
succeeds and puts `ghost1` into `readyPlayers`; after two more calls with
`ghost2` and `ghost3` the size of `readyPlayers` equals the roster size and
the round starts although no roster member is ready. -/
theorem C13_unknown_player_accepted :
    Reachable threeRegistered ∧
    (∀ p ∈ threeRegistered.players, p.id ≠ "ghost1") ∧
    (apiReady threeRegistered (some "ghost1") drawZero drawZero).1.isOk = true ∧
    (apiReady threeRegistered (some "ghost1") drawZero drawZero).2.readyPlayers =
      ["ghost1"] ∧
    (apiReady threeRegistered (some "ghost1") drawZero drawZero).2 ≠ threeRegistered ∧
    (step (step threeRegistered (Op.markReady (some "ghost1") drawZero drawZero))
      (Op.markReady (some "ghost2") drawZero drawZero)).readyPlayers =
      ["ghost1", "ghost2"] ∧
    (step (step (step threeRegistered (Op.markReady (some "ghost1") drawZero drawZero))
      (Op.markReady (some "ghost2") drawZero drawZero))
      (Op.markReady (some "ghost3") drawZero drawZero)).stage = Stage.asking ∧
    (step (step (step threeRegistered (Op.markReady (some "ghost1") drawZero drawZero))
      (Op.markReady (some "ghost2") drawZero drawZero))
      (Op.markReady (some "ghost3") drawZero drawZero)).impostorId =
      some "1700000000001" :=
  ⟨reachable_run _, by decide, by decide, by decide, by decide, by decide, by decide,
    by decide⟩

/-! ## C14, C15, C16: the round reset -/

/-- The state after `/api/next-stage` in stage `results`. -/
theorem nextStage_results (s : GameState) (hs : s.stage = Stage.results) :
    nextStage s = resetGameState s := by
  simp only [nextStage, hs]

/-- C14: in every state in stage `results` (so in every reachable one),
whatever the outcome of the round, `/api/next-stage` responds with stage
`waiting` and yields a state in which the stage is `waiting`, `votes` and
`votedPlayers` are empty, `currentQuestionIndex` is 0 and every player's
`word` is null, while the roster keeps its length and order and every
player's id, name, photo reference and score. -/
theorem C14_round_reset (s : GameState) (hs : s.stage = Stage.results) :
    (apiNextStage s).1 = Except.ok (Stage.waiting, (apiNextStage s).2.players[0]?) ∧
    (apiNextStage s).2.stage = Stage.waiting ∧
    (apiNextStage s).2.votes = [] ∧
    (apiNextStage s).2.votedPlayers = [] ∧
    (apiNextStage s).2.currentQuestionIndex = 0 ∧
    (∀ p ∈ (apiNextStage s).2.players, p.word = Option.none) ∧
    (apiNextStage s).2.players.length = s.players.length ∧
    (apiNextStage s).2.players.map Player.id = s.players.map Player.id ∧
    (apiNextStage s).2.players.map Player.name = s.players.map Player.name ∧
    (apiNextStage s).2.players.map Player.photoUrl = s.players.map Player.photoUrl ∧
    (apiNextStage s).2.players.map Player.score = s.players.map Player.score := by
  have h2 : (apiNextStage s).2 = resetGameState s := nextStage_results s hs
  have h1 : (apiNextStage s).1 =
      Except.ok (Stage.waiting, (apiNextStage s).2.players[0]?) := by
    rw [h2]
    show Except.ok ((nextStage s).stage,
      (nextStage s).players[(nextStage s).currentQuestionIndex]?) = _
    rw [nextStage_results s hs]
    rfl
  refine ⟨h1, ?_⟩
  rw [h2]
  unfold resetGameState
  refine ⟨rfl, rfl, rfl, rfl, ?_, ?_, ?_, ?_, ?_, ?_⟩
  · intro p hp
    obtain ⟨q, _, rfl⟩ := List.mem_map.mp hp
    rfl
  · simp
  · simp [List.map_map, Function.comp_def]
  · simp [List.map_map, Function.comp_def]
  · simp [List.map_map, Function.comp_def]
  · simp [List.map_map, Function.comp_def]

/-- C14 at the end-to-end scenario after the third vote. -/
theorem C14_round_reset_witness :
    afterFullCoverage.stage = Stage.results ∧
    (apiNextStage afterFullCoverage).2.stage = Stage.waiting ∧
    (apiNextStage afterFullCoverage).2.votes = [] ∧
    (apiNextStage afterFullCoverage).2.votedPlayers = [] ∧
    (apiNextStage afterFullCoverage).2.currentQuestionIndex = 0 ∧
    (∀ p ∈ (apiNextStage afterFullCoverage).2.players, p.word = Option.none) :=
  ⟨by decide, (C14_round_reset afterFullCoverage (by decide)).2.1,
    (C14_round_reset afterFullCoverage (by decide)).2.2.1,
    (C14_round_reset afterFullCoverage (by decide)).2.2.2.1,
    (C14_round_reset afterFullCoverage (by decide)).2.2.2.2.1,
    (C14_round_reset afterFullCoverage (by decide)).2.2.2.2.2.1⟩

/-- C15 (counterexample): after the reset of the end-to-end scenario the stage
is `waiting`, but `currentWord` and `impostorId` still hold the word and the
impostor of the finished round. -/
theorem C15_secrets_kept_counterexample :
    Reachable afterFullCoverage ∧ afterFullCoverage.stage = Stage.results ∧
    Reachable (apiNextStage afterFullCoverage).2 ∧
    (apiNextStage afterFullCoverage).2.stage = Stage.waiting ∧
    (apiNextStage afterFullCoverage).2.currentWord = some "فيل" ∧
    (apiNextStage afterFullCoverage).2.impostorId = some "1700000000002" ∧
    ¬ ((apiNextStage afterFullCoverage).2.currentWord = Option.none ∧
      (apiNextStage afterFullCoverage).2.impostorId = Option.none) :=
  ⟨reachable_run _, by decide, Reachable.step _ Op.advanceStage (reachable_run _),
    by decide, by decide, by decide, by decide⟩

/-- C15 (amended): in every state in stage `results`, `/api/next-stage` sets the
stage to `waiting` and every player's `word` to null, and leaves `currentWord`
and `impostorId` as they were. -/
theorem C15_reset_keeps_session_secrets (s : GameState) (hs : s.stage = Stage.results) :
    (apiNextStage s).2.stage = Stage.waiting ∧
    (∀ p ∈ (apiNextStage s).2.players, p.word = Option.none) ∧
    (apiNextStage s).2.currentWord = s.currentWord ∧
    (apiNextStage s).2.impostorId = s.impostorId := by
  have h2 : (apiNextStage s).2 = resetGameState s := nextStage_results s hs
  rw [h2]
  unfold resetGameState
  refine ⟨rfl, ?_, rfl, rfl⟩
  intro p hp
  obtain ⟨q, _, rfl⟩ := List.mem_map.mp hp
  rfl

/-- C15 (amended) at the end-to-end scenario after the third vote. -/
theorem C15_reset_keeps_session_secrets_witness :
    afterFullCoverage.stage = Stage.results ∧
    ((apiNextStage afterFullCoverage).2.stage = Stage.waiting ∧
    (∀ p ∈ (apiNextStage afterFullCoverage).2.players, p.word = Option.none) ∧
    (apiNextStage afterFullCoverage).2.currentWord = afterFullCoverage.currentWord ∧
    (apiNextStage afterFullCoverage).2.impostorId = afterFullCoverage.impostorId) :=
  ⟨by decide, C15_reset_keeps_session_secrets afterFullCoverage (by decide)⟩

/-- C16 (counterexample): in stage `results` the players `P1` and `P2` have
asked for the next round, so `readyPlayers` holds their ids at the time of the
reset, and after `/api/next-stage` their highlight is `ready`. -/
theorem C16_ready_highlight_counterexample :
    Reachable resultsTwoReady ∧ resultsTwoReady.stage = Stage.results ∧
    resultsTwoReady.readyPlayers = ["1700000000001", "1700000000002"] ∧
    (apiNextStage resultsTwoReady).2.stage = Stage.waiting ∧
    (apiNextStage resultsTwoReady).2.players.map Player.highlight =
      [Highlight.ready, Highlight.ready, Highlight.none] ∧
    ¬ (∀ p ∈ (apiNextStage resultsTwoReady).2.players, p.highlight = Highlight.none) :=
  ⟨reachable_run _, by decide, by decide, by decide, by decide, by decide⟩

/-- C16 (amended): in every state in stage `results`, after `/api/next-stage`
a player's highlight is `ready` if its id is in `readyPlayers` and `none`
otherwise, and `readyPlayers` is unchanged; so every highlight is `none` when
`readyPlayers` is empty at the time of the reset. -/
theorem C16_highlights_after_reset (s : GameState) (hs : s.stage = Stage.results) :
    (apiNextStage s).2.readyPlayers = s.readyPlayers ∧
    (∀ p ∈ (apiNextStage s).2.players,
      (p.id ∈ s.readyPlayers → p.highlight = Highlight.ready) ∧
      (p.id ∉ s.readyPlayers → p.highlight = Highlight.none)) ∧
    (s.readyPlayers = [] → ∀ p ∈ (apiNextStage s).2.players, p.highlight = Highlight.none) := by
  have h2 : (apiNextStage s).2 = resetGameState s := nextStage_results s hs
  have hall : ∀ p ∈ (apiNextStage s).2.players,
      (p.id ∈ s.readyPlayers → p.highlight = Highlight.ready) ∧
      (p.id ∉ s.readyPlayers → p.highlight = Highlight.none) := by
    rw [h2]
    unfold resetGameState
    intro p hp
    obtain ⟨q, _, rfl⟩ := List.mem_map.mp hp
    by_cases hq : q.id ∈ s.readyPlayers <;> simp [hq]
  refine ⟨?_, hall, ?_⟩
  · rw [h2]; rfl
  · intro hempty p hp
    exact (hall p hp).2 (by rw [hempty]; simp)

/-- C16 (amended) at the state in which `P1` and `P2` asked for the next round. -/
theorem C16_highlights_after_reset_witness :
    resultsTwoReady.stage = Stage.results ∧
    ((apiNextStage resultsTwoReady).2.readyPlayers = resultsTwoReady.readyPlayers ∧
    (∀ p ∈ (apiNextStage resultsTwoReady).2.players,
      (p.id ∈ resultsTwoReady.readyPlayers → p.highlight = Highlight.ready) ∧
      (p.id ∉ resultsTwoReady.readyPlayers → p.highlight = Highlight.none)) ∧
    (resultsTwoReady.readyPlayers = [] →
      ∀ p ∈ (apiNextStage resultsTwoReady).2.players, p.highlight = Highlight.none)) :=
  ⟨by decide, C16_highlights_after_reset resultsTwoReady (by decide)⟩

/-! ## C17: ids -/

theorem digitValue_digitChar (k : Nat) (hk : k < 10) :
    digitValue (Nat.digitChar k) = some k := by
  interval_cases k <;> rfl

theorem parseDigits_cons (c : Char) (cs : List Char) (acc d : Nat)
    (h : digitValue c = some d) : parseDigits (c :: cs) acc = parseDigits cs (acc * 10 + d) := by
  simp only [parseDigits, h]

theorem toDigitsCore_parse (fuel : Nat) :
    ∀ (n : Nat) (ds : List Char), n < fuel →
      ∃ pre, Nat.toDigitsCore 10 fuel n ds = pre ++ ds ∧
        ∀ (acc : Nat) (tl : List Char),
          parseDigits (pre ++ tl) acc = parseDigits tl (acc * 10 ^ pre.length + n) := by
  induction fuel with
  | zero => intro n ds h; exact absurd h (Nat.not_lt_zero n)
  | succ f ih =>
    intro n ds hn
    have hd : digitValue (Nat.digitChar (n % 10)) = some (n % 10) :=
      digitValue_digitChar _ (Nat.mod_lt n (by decide))
    by_cases h0 : n / 10 = 0
    · refine ⟨[Nat.digitChar (n % 10)], by simp [Nat.toDigitsCore, h0], ?_⟩
      intro acc tl
      have hlt : n < 10 := by omega
      rw [List.singleton_append, parseDigits_cons _ _ _ _ hd, Nat.mod_eq_of_lt hlt,
        List.length_singleton, pow_one]
    · have hlt : n / 10 < f := by omega
      obtain ⟨pre, hpre, hparse⟩ := ih (n / 10) (Nat.digitChar (n % 10) :: ds) hlt
      refine ⟨pre ++ [Nat.digitChar (n % 10)], by simp [Nat.toDigitsCore, h0, hpre], ?_⟩
      intro acc tl
      rw [List.append_assoc, List.singleton_append, hparse, parseDigits_cons _ _ _ _ hd,
        List.length_append, List.length_singleton]
      congr 1
      rw [Nat.pow_succ]
      have := Nat.div_add_mod n 10
      nlinarith [this]

theorem parseDigits_toString (n : Nat) : parseDigits (toString n).data 0 = some n := by
  obtain ⟨pre, hpre, hparse⟩ := toDigitsCore_parse (n + 1) n [] (Nat.lt_succ_self n)
  have hdata : (toString n).data = pre := by
    show Nat.toDigits 10 n = pre
    simpa [Nat.toDigits] using hpre
  rw [hdata]
  have := hparse 0 []
  simpa [parseDigits] using this

theorem toString_nat_injective (a b : Nat) (h : toString a = toString b) : a = b := by
  have ha := parseDigits_toString a
  rw [h, parseDigits_toString b] at ha
  exact (Option.some.inj ha).symm

theorem step_ids (s : GameState) (op : Op) :
    (step s op).players.map Player.id = s.players.map Player.id ∨
    ∃ name file now n f, op = Op.registerPlayer name file now ∧
      (step s op).players = s.players ++ [newPlayer n f now] := by
  cases op with
  | registerPlayer name file now =>
    rcases apiUpload_cases s name file now with ⟨_, h⟩ | ⟨n, f, _, _, _, _, _, h⟩
    · left; simp only [step, h]
    · right; exact ⟨name, file, now, n, f, rfl, by simp only [step, h]⟩
  | markReady playerId w i =>
    left
    rcases apiReady_cases s playerId w i with h | ⟨f, hf, h⟩
    · simp only [step, h]
    · simp only [step, h]
      exact map_id_map f (fun p => (hf p).1) _
  | advanceStage =>
    left
    obtain ⟨f, hf, h⟩ := nextStage_players s
    simp only [step, apiNextStage, h]
    exact map_id_map f (fun p => (hf p).1) _
  | castVote v c =>
    left
    simp only [step, apiVote_players]

theorem ids_nodup_foldl (ops : List Op) :
    ∀ (s : GameState) (used : List Nat), (s.players.map Player.id).Nodup →
      (∀ x ∈ s.players.map Player.id, ∃ n ∈ used, x = toString n) →
      (clockReadings ops).Nodup → (∀ n ∈ clockReadings ops, n ∉ used) →
      ((ops.foldl step s).players.map Player.id).Nodup := by
  induction ops with
  | nil => intro s used h _ _ _; exact h
  | cons op ops ih =>
    intro s used hnd hused hclock hfresh
    rw [List.foldl_cons]
    rcases step_ids s op with h | ⟨name, file, now, n, f, rfl, h⟩
    · refine ih (step s op) used (by rw [h]; exact hnd) (by rw [h]; exact hused) ?_ ?_
      · cases op <;> first | exact hclock | exact (List.nodup_cons.mp hclock).2
      · intro m hm
        apply hfresh
        cases op <;> first | exact hm | exact List.mem_cons_of_mem _ hm
    · simp only [clockReadings, List.nodup_cons] at hclock
      have hnow : now ∉ used := hfresh now (by simp [clockReadings])
      have hids : (step s (Op.registerPlayer name file now)).players.map Player.id =
          s.players.map Player.id ++ [toString now] := by
        rw [h]; simp [newPlayer]
      refine ih _ (now :: used) ?_ ?_ hclock.2 ?_
      · rw [hids, List.nodup_append]
        refine ⟨hnd, by simp, ?_⟩
        intro a ha hb
        simp only [List.mem_singleton] at hb
        subst hb
        obtain ⟨m, hm, hEq⟩ := hused _ ha
        exact hnow (toString_nat_injective now m hEq ▸ hm)
      · intro x hx
        rw [hids, List.mem_append] at hx
        rcases hx with hx | hx
        · obtain ⟨m, hm, hEq⟩ := hused x hx
          exact ⟨m, List.mem_cons_of_mem _ hm, hEq⟩
        · simp only [List.mem_singleton] at hx
          exact ⟨now, List.mem_cons_self _ _, hx⟩
      · intro m hm hmem
        rcases List.mem_cons.mp hmem with rfl | hmem
        · exact hclock.1 hm
        · exact hfresh m (by simp [clockReadings, hm]) hmem

/-- C17 (counterexample): two registrations that read the same clock value get
the same id. -/
theorem C17_same_clock_counterexample :
    Reachable (run sameMillisecond) ∧
    (run sameMillisecond).players.map Player.name = ["P1", "P2"] ∧
    (run sameMillisecond).players.map Player.id = ["1700000000001", "1700000000001"] ∧
    ¬ ((run sameMillisecond).players.map Player.id).Nodup :=
  ⟨reachable_run _, by decide, by decide, by decide⟩

/-- C17 (amended): in every state reached from the initial state by a sequence
of operations in which the clock readings supplied to `/api/upload` are
pairwise distinct, the ids of the roster members are pairwise distinct. -/
theorem C17_ids_distinct_for_distinct_clocks (ops : List Op)
    (h : (clockReadings ops).Nodup) : ((run ops).players.map Player.id).Nodup :=
  ids_nodup_foldl ops initialState [] (by simp [initialState]) (by simp [initialState]) h
    (by simp)

/-- C17 (amended) at the round of the end-to-end scenario. -/
theorem C17_ids_distinct_for_distinct_clocks_witness :
    (clockReadings (roundToVoting drawHalf drawHalf)).Nodup ∧
    ((run (roundToVoting drawHalf drawHalf)).players.map Player.id).Nodup :=
  ⟨by decide, C17_ids_distinct_for_distinct_clocks _ (by decide)⟩

/-! ## C18: votes outside stage `voting` -/

/-- C18 (counterexample): `/api/vote` does not check the stage. With three
players registered and the stage still `waiting`, the votes of `P1` and `P2`
are accepted, so the tally and the voter set are not empty in stage
`waiting`. -/
theorem C18_votes_in_waiting_counterexample :
    Reachable waitingTwoVotes ∧ waitingTwoVotes.stage = Stage.waiting ∧
    waitingTwoVotes.votes =
      [("1700000000002", { count := 1, voters := ["P1"] }),
        ("1700000000003", { count := 1, voters := ["P2"] })] ∧
    waitingTwoVotes.votedPlayers = ["1700000000001", "1700000000002"] ∧
    ¬ (waitingTwoVotes.votes = [] ∧ waitingTwoVotes.votedPlayers = []) :=
  ⟨reachable_run _, by decide, by decide, by decide, by decide⟩

theorem step_votes_cleared (s : GameState) (op : Op)
    (hinv : (s.stage = Stage.waiting ∨ s.stage = Stage.asking) →
      s.votes = [] ∧ s.votedPlayers = [])
    (hop : ∀ v c, op = Op.castVote v c → s.stage = Stage.voting) :
    ((step s op).stage = Stage.waiting ∨ (step s op).stage = Stage.asking) →
      (step s op).votes = [] ∧ (step s op).votedPlayers = [] := by
  cases op with
  | registerPlayer name file now =>
    rcases apiUpload_cases s name file now with ⟨_, h⟩ | ⟨n, f, _, _, _, _, _, h⟩ <;>
      simp only [step, h] <;> exact hinv
  | markReady playerId w i =>
    cases hf : falsy playerId with
    | true => simp only [step, apiReady_error s playerId w i hf]; exact hinv
    | false =>
      by_cases hc : (setAdd s.readyPlayers (playerId.getD "")).length = s.players.length ∧
          3 ≤ s.players.length
      · simp only [step, apiReady_start s playerId w i hf hc]
        intro _; exact ⟨trivial, trivial⟩
      · simp only [step, apiReady_noStart s playerId w i hf hc]
        exact hinv
  | advanceStage =>
    simp only [step, apiNextStage]
    unfold nextStage
    split
    · rename_i ha
      intro _
      exact hinv (Or.inr ha)
    · intro h; simp at h
    · intro _; exact ⟨rfl, rfl⟩
    · exact hinv
  | castVote v c =>
    have hs := hop v c rfl
    intro h
    simp only [step] at h
    rcases apiVote_stage s v c with h' | h'
    · rw [h', hs] at h; simp at h
    · rw [h'] at h; simp at h

theorem votes_cleared_foldl (ops : List Op) :
    ∀ s : GameState,
      ((s.stage = Stage.waiting ∨ s.stage = Stage.asking) →
        s.votes = [] ∧ s.votedPlayers = []) →
      votesOnlyInVoting s ops = true →
      ((ops.foldl step s).stage = Stage.waiting ∨ (ops.foldl step s).stage = Stage.asking) →
        (ops.foldl step s).votes = [] ∧ (ops.foldl step s).votedPlayers = [] := by
  induction ops with
  | nil => intro s h _; exact h
  | cons op ops ih =>
    intro s hinv hdisc
    rw [List.foldl_cons]
    cases op with
    | castVote v c =>
      simp only [votesOnlyInVoting, Bool.and_eq_true, beq_iff_eq] at hdisc
      exact ih _ (step_votes_cleared s _ hinv (fun _ _ _ => hdisc.1)) hdisc.2
    | registerPlayer name file now =>
      exact ih _ (step_votes_cleared s _ hinv (fun _ _ h => by cases h)) hdisc
    | markReady playerId w i =>
      exact ih _ (step_votes_cleared s _ hinv (fun _ _ h => by cases h)) hdisc
    | advanceStage =>
      exact ih _ (step_votes_cleared s _ hinv (fun _ _ h => by cases h)) hdisc

/-- C18 (amended): in every state reached from the initial state by a sequence
of operations in which every `/api/vote` request arrives while the stage is
`voting`, if the stage is `waiting` or `asking` then `votes` and
`votedPlayers` are empty. -/
theorem C18_votes_only_around_voting (ops : List Op)
    (h : votesOnlyInVoting initialState ops = true)
    (hs : (run ops).stage = Stage.waiting ∨ (run ops).stage = Stage.asking) :
    (run ops).votes = [] ∧ (run ops).votedPlayers = [] :=
  votes_cleared_foldl ops initialState (fun _ => ⟨rfl, rfl⟩) h hs

/-- C18 (amended) at the end-to-end scenario followed by the reset: the three
votes are cast in stage `voting`, and in the stage `waiting` reached by the
reset the tally and the voter set are empty. -/
theorem C18_votes_only_around_voting_witness :
    votesOnlyInVoting initialState
      (roundToVoting drawHalf drawHalf ++ fullCoverageVotes ++ [Op.advanceStage]) = true ∧
    ((run (roundToVoting drawHalf drawHalf ++ fullCoverageVotes ++
        [Op.advanceStage])).stage = Stage.waiting ∨
      (run (roundToVoting drawHalf drawHalf ++ fullCoverageVotes ++
        [Op.advanceStage])).stage = Stage.asking) ∧
    ((run (roundToVoting drawHalf drawHalf ++ fullCoverageVotes ++
        [Op.advanceStage])).votes = [] ∧
      (run (roundToVoting drawHalf drawHalf ++ fullCoverageVotes ++
        [Op.advanceStage])).votedPlayers = []) :=
  ⟨by decide, by decide,
    C18_votes_only_around_voting _ (by decide) (by decide)⟩

/-! ## C19: questioner index and impostor inside the roster -/

theorem apiVote_currentQuestionIndex (s : GameState) (v c : Option String) :
    (apiVote s v c).2.currentQuestionIndex = s.currentQuestionIndex := by
  simp only [apiVote]
  split_ifs <;> first | rfl | (split <;> rfl)

theorem nextStage_impostorId (s : GameState) : (nextStage s).impostorId = s.impostorId := by
  unfold nextStage
  split <;> rfl

theorem nextStage_index (s : GameState) :
    (nextStage s).currentQuestionIndex = s.currentQuestionIndex ∨
    (nextStage s).currentQuestionIndex = 0 ∨
    (s.stage = Stage.asking ∧
      (nextStage s).currentQuestionIndex = (s.currentQuestionIndex + 1) % s.players.length) := by
  unfold nextStage
  split
  · rename_i h; exact Or.inr (Or.inr ⟨h, rfl⟩)
  · exact Or.inl rfl
  · exact Or.inr (Or.inl rfl)
  · exact Or.inl rfl

theorem reachable_index_impostor (s : GameState) (h : Reachable s) :
    (s.currentQuestionIndex = 0 ∨ s.currentQuestionIndex < s.players.length) ∧
    ∀ imp, s.impostorId = some imp → imp ∈ s.players.map Player.id := by
  induction h with
  | init => exact ⟨Or.inl rfl, fun imp h => by simp [initialState] at h⟩
  | step s op hr ih =>
    obtain ⟨hidx, himp⟩ := ih
    cases op with
    | registerPlayer name file now =>
      rcases apiUpload_cases s name file now with ⟨_, h⟩ | ⟨n, f, _, _, _, _, _, h⟩
      · simp only [step, h]; exact ⟨hidx, himp⟩
      · simp only [step, h, List.length_append, List.map_append, List.mem_append]
        refine ⟨?_, fun imp hi => Or.inl (himp imp hi)⟩
        rcases hidx with h0 | hlt
        · exact Or.inl h0
        · exact Or.inr (by omega)
    | markReady playerId w i =>
      cases hf : falsy playerId with
      | true => simp only [step, apiReady_error s playerId w i hf]; exact ⟨hidx, himp⟩
      | false =>
        obtain ⟨pid, rfl, hpid⟩ := (not_falsy_iff playerId).mp (by simp [hf])
        by_cases hc : (setAdd s.readyPlayers pid).length = s.players.length ∧
            3 ≤ s.players.length
        · obtain ⟨word, imp, _, hmem, heq⟩ := apiReady_start_spec s pid hpid w i hc
          rw [show step s (Op.markReady (some pid) w i) = _ from heq]
          refine ⟨Or.inl rfl, ?_⟩
          intro imp' hi
          simp only [Option.some.injEq] at hi
          subst hi
          simpa [List.map_map, Function.comp_def] using hmem
        · simp only [step, apiReady_noStart s (some pid) w i hf hc, List.length_map]
          refine ⟨hidx, fun imp hi => ?_⟩
          rw [map_id_map]
          · exact himp imp hi
          · intro p; split_ifs <;> rfl
    | advanceStage =>
      obtain ⟨f, hf, hpl⟩ := nextStage_players s
      have hlen : (nextStage s).players.length = s.players.length := by
        rw [hpl, List.length_map]
      have hids : (nextStage s).players.map Player.id = s.players.map Player.id := by
        rw [hpl]; exact map_id_map f (fun p => (hf p).1) _
      simp only [step, apiNextStage]
      refine ⟨?_, fun imp hi => ?_⟩
      · rw [hlen]
        rcases nextStage_index s with h | h | ⟨ha, h⟩
        · rw [h]; exact hidx
        · exact Or.inl h
        · have h3 := (reachable_roundInv s hr (Or.inl ha)).1
          rw [h]
          exact Or.inr (Nat.mod_lt _ (by omega))
      · rw [hids]
        rw [nextStage_impostorId] at hi
        exact himp imp hi
    | castVote v c =>
      simp only [step, apiVote_players, apiVote_impostorId, apiVote_currentQuestionIndex]
      exact ⟨hidx, himp⟩

/-- C19: in every reachable state with a non-empty roster,
`currentQuestionIndex` is below the roster length, so `currentQuestioner` is a
roster member; in stage `asking` the roster (the modulus of the index update)
is not empty; and `impostorId` is null or the id of a roster member. -/
theorem C19_index_and_impostor_in_roster (s : GameState) (hr : Reachable s) :
    (s.players ≠ [] → s.currentQuestionIndex < s.players.length) ∧
    (s.players ≠ [] → ∃ p ∈ s.players, s.players[s.currentQuestionIndex]? = some p) ∧
    (s.stage = Stage.asking → 0 < s.players.length) ∧
    (s.impostorId = Option.none ∨ ∃ p ∈ s.players, s.impostorId = some p.id) := by
  obtain ⟨hidx, himp⟩ := reachable_index_impostor s hr
  have hlt : s.players ≠ [] → s.currentQuestionIndex < s.players.length := by
    intro hne
    have hpos : 0 < s.players.length := List.length_pos.mpr hne
    rcases hidx with h0 | h
    · rw [h0]; exact hpos
    · exact h
  refine ⟨hlt, ?_, ?_, ?_⟩
  · intro hne
    have hb : s.currentQuestionIndex < s.players.length := hlt hne
    exact ⟨s.players[s.currentQuestionIndex], List.getElem_mem _,
      List.getElem?_eq_getElem hb⟩
  · intro ha
    have := (reachable_roundInv s hr (Or.inl ha)).1
    omega
  · cases hi : s.impostorId with
    | none => exact Or.inl rfl
    | some imp =>
      right
      obtain ⟨p, hp, hpid⟩ := List.mem_map.mp (himp imp hi)
      exact ⟨p, hp, by rw [hpid]⟩

/-- C19 at the end-to-end scenario after the third vote. -/
theorem C19_index_and_impostor_in_roster_witness :
    Reachable afterFullCoverage ∧
    ((afterFullCoverage.players ≠ [] →
      afterFullCoverage.currentQuestionIndex < afterFullCoverage.players.length) ∧
    (afterFullCoverage.players ≠ [] →
      ∃ p ∈ afterFullCoverage.players,
        afterFullCoverage.players[afterFullCoverage.currentQuestionIndex]? = some p) ∧
    (afterFullCoverage.stage = Stage.asking → 0 < afterFullCoverage.players.length) ∧
    (afterFullCoverage.impostorId = Option.none ∨
      ∃ p ∈ afterFullCoverage.players, afterFullCoverage.impostorId = some p.id)) :=
  ⟨reachable_run _, C19_index_and_impostor_in_roster afterFullCoverage (reachable_run _)⟩

/-! ## C20: broadcasts -/

theorem broadcasts_broadcastGameState (sv : Server) (g : GameState) :
    Broadcasts sv (broadcastGameState { sv with game := g }) := by
  refine ⟨rfl, (sv.sockets.map fun id => (id, gameStateUpdate g)), rfl, ?_, ?_⟩
  · intro id hid
    exact List.mem_map.mpr ⟨id, hid, rfl⟩
  · intro d hd
    obtain ⟨id, hid, rfl⟩ := List.mem_map.mp hd
    exact ⟨hid, rfl⟩

theorem broadcasts_twice (sv : Server) (g : GameState) :
    Broadcasts sv (broadcastGameState (broadcastGameState { sv with game := g })) := by
  refine ⟨rfl, (sv.sockets.map fun id => (id, gameStateUpdate g)) ++
    (sv.sockets.map fun id => (id, gameStateUpdate g)), ?_, ?_, ?_⟩
  · simp [broadcastGameState, ioEmit, List.append_assoc]
  · intro id hid
    exact List.mem_append_left _ (List.mem_map.mpr ⟨id, hid, rfl⟩)
  · intro d hd
    rcases List.mem_append.mp hd with hd | hd <;>
      (obtain ⟨id, hid, rfl⟩ := List.mem_map.mp hd; exact ⟨hid, rfl⟩)

theorem apiVote_error_state (s : GameState) (v c : Option String)
    (h : (apiVote s v c).1.isOk = false) : (apiVote s v c).2 = s := by
  by_cases hm : falsy v = true ∨ falsy c = true
  · simp only [apiVote, if_pos hm]
  · rw [not_or, not_falsy_iff, not_falsy_iff] at hm
    obtain ⟨⟨vid, rfl, hv⟩, ⟨cid, rfl, hc⟩⟩ := hm
    obtain ⟨r1, r2, r3, r4⟩ := apiVote_result s vid cid hv hc
    by_cases h1 : vid = cid
    · rw [r1 h1]
    · by_cases h2 : vid ∈ s.votedPlayers
      · rw [r2 h1 h2]
      · by_cases h3 : (∀ p ∈ s.players, some p.id ≠ some vid) ∨
            (∀ p ∈ s.players, some p.id ≠ some cid)
        · rw [r3 h1 h2 h3]
        · obtain ⟨a, b, hok⟩ := r4 h1 h2 h3
          rw [hok] at h
          simp [Except.isOk, Except.toBool] at h

theorem apiUpload_error_state (s : GameState) (name file : Option String) (now : Nat)
    (h : (apiUpload s name file now).1.isOk = false) : (apiUpload s name file now).2 = s := by
  rcases apiUpload_cases s name file now with ⟨_, hs⟩ | ⟨n, f, _, _, _, _, hok, _⟩
  · exact hs
  · rw [hok] at h
    simp [Except.isOk, Except.toBool] at h

theorem apiReady_error_state (s : GameState) (playerId : Option String) (w i : UnitDraw)
    (h : (apiReady s playerId w i).1.isOk = false) : (apiReady s playerId w i).2 = s := by
  cases hf : falsy playerId with
  | true => rw [apiReady_error s playerId w i hf]
  | false =>
    exfalso
    revert h
    simp only [apiReady, hf]
    split_ifs <;> first | contradiction | simp [Except.isOk, Except.toBool]

theorem postNextStage_game (sv : Server) :
    (postNextStage sv).1 = (apiNextStage sv.game).1 ∧
    (postNextStage sv).2.game = (apiNextStage sv.game).2 ∧
    Broadcasts sv (postNextStage sv).2 := by
  cases hs : sv.game.stage with
  | results =>
    have h : (postNextStage sv).2 =
        broadcastGameState (broadcastGameState { sv with game := resetGameState sv.game }) := by
      simp only [postNextStage, hs]
    have hg : nextStage sv.game = resetGameState sv.game := nextStage_results sv.game hs
    refine ⟨?_, ?_, ?_⟩
    · simp only [postNextStage, hs, apiNextStage, hg]; rfl
    · rw [h]; exact hg.symm
    · rw [h]; exact broadcasts_twice sv _
  | waiting =>
    have h : (postNextStage sv).2 = broadcastGameState { sv with game := nextStage sv.game } := by
      simp only [postNextStage, hs]
    refine ⟨?_, ?_, ?_⟩
    · simp only [postNextStage, hs, apiNextStage]; rfl
    · rw [h]; rfl
    · rw [h]; exact broadcasts_broadcastGameState sv _
  | asking =>
    have h : (postNextStage sv).2 = broadcastGameState { sv with game := nextStage sv.game } := by
      simp only [postNextStage, hs]
    refine ⟨?_, ?_, ?_⟩
    · simp only [postNextStage, hs, apiNextStage]; rfl
    · rw [h]; rfl
    · rw [h]; exact broadcasts_broadcastGameState sv _
  | voting =>
    have h : (postNextStage sv).2 = broadcastGameState { sv with game := nextStage sv.game } := by
      simp only [postNextStage, hs]
    refine ⟨?_, ?_, ?_⟩
    · simp only [postNextStage, hs, apiNextStage]; rfl
    · rw [h]; rfl
    · rw [h]; exact broadcasts_broadcastGameState sv _

theorem postUpload_spec (sv : Server) (name file : Option String) (now : Nat) :
    (postUpload sv name file now).1 = (apiUpload sv.game name file now).1 ∧
    (postUpload sv name file now).2.game = (apiUpload sv.game name file now).2 ∧
    ((postUpload sv name file now).1.isOk = true →
      Broadcasts sv (postUpload sv name file now).2) ∧
    ((postUpload sv name file now).1.isOk = false → (postUpload sv name file now).2 = sv) := by
  have herr := apiUpload_error_state sv.game name file now
  unfold postUpload
  cases h : apiUpload sv.game name file now with
  | mk r g =>
    rw [h] at herr
    cases r with
    | ok p =>
      exact ⟨rfl, rfl, fun _ => broadcasts_broadcastGameState sv g,
        fun hf => by simp [Except.isOk, Except.toBool] at hf⟩
    | error e =>
      have hg : g = sv.game := herr rfl
      subst hg
      exact ⟨rfl, rfl, fun hf => by simp [Except.isOk, Except.toBool] at hf, fun _ => rfl⟩

theorem postReady_spec (sv : Server) (playerId : Option String) (w i : UnitDraw) :
    (postReady sv playerId w i).1 = (apiReady sv.game playerId w i).1 ∧
    (postReady sv playerId w i).2.game = (apiReady sv.game playerId w i).2 ∧
    ((postReady sv playerId w i).1.isOk = true → Broadcasts sv (postReady sv playerId w i).2) ∧
    ((postReady sv playerId w i).1.isOk = false → (postReady sv playerId w i).2 = sv) := by
  have herr := apiReady_error_state sv.game playerId w i
  unfold postReady
  cases h : apiReady sv.game playerId w i with
  | mk r g =>
    rw [h] at herr
    cases r with
    | ok p =>
      exact ⟨rfl, rfl, fun _ => broadcasts_broadcastGameState sv g,
        fun hf => by simp [Except.isOk, Except.toBool] at hf⟩
    | error e =>
      have hg : g = sv.game := herr rfl
      subst hg
      exact ⟨rfl, rfl, fun hf => by simp [Except.isOk, Except.toBool] at hf, fun _ => rfl⟩

theorem postVote_spec (sv : Server) (voterId votedPlayerId : Option String) :
    (postVote sv voterId votedPlayerId).1 = (apiVote sv.game voterId votedPlayerId).1 ∧
    (postVote sv voterId votedPlayerId).2.game = (apiVote sv.game voterId votedPlayerId).2 ∧
    ((postVote sv voterId votedPlayerId).1.isOk = true →
      Broadcasts sv (postVote sv voterId votedPlayerId).2) ∧
    ((postVote sv voterId votedPlayerId).1.isOk = false →
      (postVote sv voterId votedPlayerId).2 = sv) := by
  have herr := apiVote_error_state sv.game voterId votedPlayerId
  unfold postVote
  cases h : apiVote sv.game voterId votedPlayerId with
  | mk r g =>
    rw [h] at herr
    cases r with
    | ok p =>
      exact ⟨rfl, rfl, fun _ => broadcasts_broadcastGameState sv g,
        fun hf => by simp [Except.isOk, Except.toBool] at hf⟩
    | error e =>
      have hg : g = sv.game := herr rfl
      subst hg
      exact ⟨rfl, rfl, fun hf => by simp [Except.isOk, Except.toBool] at hf, fun _ => rfl⟩

/-- C20: on the server with its connected sockets, each of `/api/upload`,
`/api/ready`, `/api/next-stage` and `/api/vote` responds and changes the game
data as the handler does; when it succeeds, at least one `game-state-update`
is sent to every connected socket and everything sent (so also the last
event) carries the game data after the operation; when it fails validation
nothing is sent and the server is unchanged, and `/api/next-stage` never
fails. `GET /api/player/:name` and `GET /api/game-state` send nothing and
leave the server unchanged. A newly connected socket is sent exactly one
event, the current game data, and nothing is sent to the other sockets. The
payload holds the roster, word, impostor id, stage, ready set, tally and
question index of the game data, with `currentQuestioner` the roster member at
the question index. -/
theorem C20_broadcast_after_mutation (sv : Server) :
    (∀ (name file : Option String) (now : Nat),
      (postUpload sv name file now).1 = (apiUpload sv.game name file now).1 ∧
      (postUpload sv name file now).2.game = (apiUpload sv.game name file now).2 ∧
      ((postUpload sv name file now).1.isOk = true →
        Broadcasts sv (postUpload sv name file now).2) ∧
      ((postUpload sv name file now).1.isOk = false →
        (postUpload sv name file now).2 = sv)) ∧
    (∀ (playerId : Option String) (w i : UnitDraw),
      (postReady sv playerId w i).1 = (apiReady sv.game playerId w i).1 ∧
      (postReady sv playerId w i).2.game = (apiReady sv.game playerId w i).2 ∧
      ((postReady sv playerId w i).1.isOk = true →
        Broadcasts sv (postReady sv playerId w i).2) ∧
      ((postReady sv playerId w i).1.isOk = false → (postReady sv playerId w i).2 = sv)) ∧
    ((postNextStage sv).1 = (apiNextStage sv.game).1 ∧
      (postNextStage sv).2.game = (apiNextStage sv.game).2 ∧
      (postNextStage sv).1.isOk = true ∧
      Broadcasts sv (postNextStage sv).2) ∧
    (∀ voterId votedPlayerId : Option String,
      (postVote sv voterId votedPlayerId).1 = (apiVote sv.game voterId votedPlayerId).1 ∧
      (postVote sv voterId votedPlayerId).2.game =
        (apiVote sv.game voterId votedPlayerId).2 ∧
      ((postVote sv voterId votedPlayerId).1.isOk = true →
        Broadcasts sv (postVote sv voterId votedPlayerId).2) ∧
      ((postVote sv voterId votedPlayerId).1.isOk = false →
        (postVote sv voterId votedPlayerId).2 = sv)) ∧
    (∀ name : String, (getPlayer sv name).2 = sv) ∧
    ((getGameState sv).2 = sv ∧ (getGameState sv).1 = gameStateUpdate sv.game) ∧
    (∀ socketId : String,
      (onConnection sv socketId).game = sv.game ∧
      (onConnection sv socketId).sockets = sv.sockets ++ [socketId] ∧
      (onConnection sv socketId).delivered =
        sv.delivered ++ [(socketId, gameStateUpdate sv.game)]) ∧
    ((gameStateUpdate sv.game).players = sv.game.players ∧
      (gameStateUpdate sv.game).currentWord = sv.game.currentWord ∧
      (gameStateUpdate sv.game).impostorId = sv.game.impostorId ∧
      (gameStateUpdate sv.game).stage = sv.game.stage ∧
      (gameStateUpdate sv.game).readyPlayers = sv.game.readyPlayers ∧
      (gameStateUpdate sv.game).votes = sv.game.votes ∧
      (gameStateUpdate sv.game).currentQuestionIndex = sv.game.currentQuestionIndex ∧
      (gameStateUpdate sv.game).currentQuestioner =
        sv.game.players[sv.game.currentQuestionIndex]?) := by
  refine ⟨postUpload_spec sv, postReady_spec sv, ?_, postVote_spec sv, ?_, ⟨rfl, rfl⟩,
    fun _ => ⟨rfl, rfl, rfl⟩, ⟨rfl, rfl, rfl, rfl, rfl, rfl, rfl, rfl⟩⟩
  · obtain ⟨h1, h2, h3⟩ := postNextStage_game sv
    exact ⟨h1, h2, by rw [h1]; rfl, h3⟩
  · intro name
    unfold getPlayer
    split_ifs
    · rfl
    · split <;> rfl

/-- C20 at a server with two connected sockets before the last vote of the
end-to-end scenario: the accepted vote sends the new game data to both
sockets, a self-vote sends nothing, and a third socket that connects is sent
the current game data. -/
theorem C20_broadcast_after_mutation_witness :
    (postVote serverTwoSockets (some "1700000000003") (some "1700000000002")).1.isOk =
      true ∧
    Broadcasts serverTwoSockets
      (postVote serverTwoSockets (some "1700000000003") (some "1700000000002")).2 ∧
    (postVote serverTwoSockets (some "1700000000003") (some "1700000000002")).2.delivered =
      [("socketA", gameStateUpdate afterFullCoverage),
        ("socketB", gameStateUpdate afterFullCoverage)] ∧
    (postVote serverTwoSockets (some "1700000000003") (some "1700000000003")).1.isOk =
      false ∧
    (postVote serverTwoSockets (some "1700000000003") (some "1700000000003")).2 =
      serverTwoSockets ∧
    (onConnection serverTwoSockets "socketC").delivered =
      [("socketC", gameStateUpdate votingTwoVotes)] :=
  ⟨by decide,
    ((C20_broadcast_after_mutation serverTwoSockets).2.2.2.1 (some "1700000000003")
      (some "1700000000002")).2.2.1 (by decide),
    by decide, by decide,
    ((C20_broadcast_after_mutation serverTwoSockets).2.2.2.1 (some "1700000000003")
      (some "1700000000003")).2.2.2 (by decide),
    by decide⟩

/-! ## C21: scores -/

theorem nextStage_scores (s : GameState) :
    ∃ f : Player → Player, (∀ p, (f p).id = p.id ∧ (f p).name = p.name ∧
        ((f p).score = p.score ∨ (s.stage = Stage.voting ∧ (f p).score = p.score + 100))) ∧
      (nextStage s).players = s.players.map f := by
  unfold nextStage
  split
  · exact ⟨id, fun p => ⟨rfl, rfl, Or.inl rfl⟩, by simp⟩
  · rename_i hv
    dsimp only
    split_ifs
    · refine ⟨_, ?_, List.map_map _ _ _⟩
      intro p
      by_cases hp : some p.id = s.impostorId <;> simp [Function.comp, hp, hv]
    · refine ⟨_, ?_, List.map_map _ _ _⟩
      intro p
      by_cases hp : some p.id = s.impostorId <;> simp [Function.comp, hp, hv]
  · exact ⟨fun p => { p with
        word := Option.none
        highlight := if p.id ∈ s.readyPlayers then Highlight.ready else Highlight.none },
      fun p => ⟨rfl, rfl, Or.inl rfl⟩, rfl⟩
  · exact ⟨id, fun p => ⟨rfl, rfl, Or.inl rfl⟩, by simp⟩

/-- The roster after a request: every existing player keeps its position, id
and name, its score is unchanged unless the request is `/api/next-stage` in
stage `voting`, which may add 100; a registered player is appended with
score 0. -/
theorem step_roster (s : GameState) (op : Op) :
    ∃ (f : Player → Player) (extra : List Player),
      (∀ p, (f p).id = p.id ∧ (f p).name = p.name ∧
        ((f p).score = p.score ∨
          (op = Op.advanceStage ∧ s.stage = Stage.voting ∧ (f p).score = p.score + 100))) ∧
      (step s op).players = s.players.map f ++ extra ∧
      (∀ x ∈ extra, x.score = 0) := by
  cases op with
  | registerPlayer name file now =>
    rcases apiUpload_cases s name file now with ⟨_, h⟩ | ⟨n, f, _, _, _, _, _, h⟩
    · exact ⟨id, [], fun p => ⟨rfl, rfl, Or.inl rfl⟩, by simp [step, h], by simp⟩
    · refine ⟨id, [newPlayer n f now], fun p => ⟨rfl, rfl, Or.inl rfl⟩, by simp [step, h], ?_⟩
      intro x hx
      simp only [List.mem_singleton] at hx
      rw [hx]; rfl
  | markReady playerId w i =>
    rcases apiReady_cases s playerId w i with h | ⟨f, hf, h⟩
    · exact ⟨id, [], fun p => ⟨rfl, rfl, Or.inl rfl⟩, by simp [step, h], by simp⟩
    · exact ⟨f, [], fun p => ⟨(hf p).1, (hf p).2.1, Or.inl (hf p).2.2.1⟩,
        by simp [step, h], by simp⟩
  | advanceStage =>
    obtain ⟨f, hf, h⟩ := nextStage_scores s
    refine ⟨f, [], fun p => ⟨(hf p).1, (hf p).2.1, ?_⟩, by simp [step, apiNextStage, h],
      by simp⟩
    rcases (hf p).2.2 with h1 | ⟨h1, h2⟩
    · exact Or.inl h1
    · exact Or.inr ⟨rfl, h1, h2⟩
  | castVote v c =>
    exact ⟨id, [], fun p => ⟨rfl, rfl, Or.inl rfl⟩, by simp [step, apiVote_players],
      by simp⟩

theorem reachable_scores (s : GameState) (h : Reachable s) :
    ∀ p ∈ s.players, 100 ∣ p.score := by
  induction h with
  | init => intro p hp; simp [initialState] at hp
  | step s op _ ih =>
    obtain ⟨f, extra, hf, hpl, hex⟩ := step_roster s op
    intro q hq
    rw [hpl, List.mem_append] at hq
    rcases hq with hq | hq
    · obtain ⟨p, hp, rfl⟩ := List.mem_map.mp hq
      rcases (hf p).2.2 with h1 | ⟨_, _, h1⟩
      · rw [h1]; exact ih p hp
      · rw [h1]; exact Dvd.dvd.add (ih p hp) (dvd_refl 100)
    · rw [hex q hq]; exact dvd_zero 100

/-- C21: in every reachable state every score is a multiple of 100, and for
every operation the roster after it holds every existing player at the same
position with the same id and name and with the same score, except that
`/api/next-stage` executed in stage `voting` may give score `+ 100` instead;
so `/api/upload`, `/api/ready`, `/api/vote`, and `/api/next-stage` outside
stage `voting` (the round reset included) change no existing player's
score. -/
theorem C21_scores_grow_by_award (s : GameState) (hr : Reachable s) (op : Op) :
    (∀ p ∈ s.players, 100 ∣ p.score) ∧
    (∀ p ∈ (step s op).players, 100 ∣ p.score) ∧
    (∀ (k : Nat) (p : Player), s.players[k]? = some p →
      ∃ q : Player, (step s op).players[k]? = some q ∧ q.id = p.id ∧ q.name = p.name ∧
        (q.score = p.score ∨
          (op = Op.advanceStage ∧ s.stage = Stage.voting ∧ q.score = p.score + 100))) ∧
    ((op ≠ Op.advanceStage ∨ s.stage ≠ Stage.voting) →
      ∀ (k : Nat) (p : Player), s.players[k]? = some p →
        ∃ q : Player, (step s op).players[k]? = some q ∧ q.score = p.score) := by
  have hpos : ∀ (k : Nat) (p : Player), s.players[k]? = some p →
      ∃ q : Player, (step s op).players[k]? = some q ∧ q.id = p.id ∧ q.name = p.name ∧
        (q.score = p.score ∨
          (op = Op.advanceStage ∧ s.stage = Stage.voting ∧ q.score = p.score + 100)) := by
    obtain ⟨f, extra, hf, hpl, _⟩ := step_roster s op
    intro k p hk
    have hlt : k < s.players.length := by
      by_contra hge
      rw [List.getElem?_eq_none (Nat.le_of_not_lt hge)] at hk
      cases hk
    refine ⟨f p, ?_, (hf p).1, (hf p).2.1, (hf p).2.2⟩
    rw [hpl, List.getElem?_append_left (by simpa using hlt), List.getElem?_map, hk]
    rfl
  refine ⟨reachable_scores s hr, reachable_scores _ (Reachable.step s op hr), hpos, ?_⟩
  intro hnot k p hk
  obtain ⟨q, hq, _, _, hscore⟩ := hpos k p hk
  refine ⟨q, hq, ?_⟩
  rcases hscore with h | ⟨h1, h2, _⟩
  · exact h
  · rcases hnot with h | h
    · exact absurd h1 h
    · exact absurd h2 h

/-- C21 at the state in stage `voting` in which `P1` voted for the impostor
`P2`: `/api/next-stage` gives every player its previous score or that score
plus 100. -/
theorem C21_scores_grow_by_award_witness :
    Reachable votingWithOneVote ∧
    (step votingWithOneVote Op.advanceStage).players.map Player.score = [100, 0, 100] ∧
    ((∀ p ∈ votingWithOneVote.players, 100 ∣ p.score) ∧
    (∀ p ∈ (step votingWithOneVote Op.advanceStage).players, 100 ∣ p.score) ∧
    (∀ (k : Nat) (p : Player), votingWithOneVote.players[k]? = some p →
      ∃ q : Player, (step votingWithOneVote Op.advanceStage).players[k]? = some q ∧
        q.id = p.id ∧ q.name = p.name ∧
        (q.score = p.score ∨
          (Op.advanceStage = Op.advanceStage ∧ votingWithOneVote.stage = Stage.voting ∧
            q.score = p.score + 100))) ∧
    ((Op.advanceStage ≠ Op.advanceStage ∨ votingWithOneVote.stage ≠ Stage.voting) →
      ∀ (k : Nat) (p : Player), votingWithOneVote.players[k]? = some p →
        ∃ q : Player, (step votingWithOneVote Op.advanceStage).players[k]? = some q ∧
          q.score = p.score)) :=
  ⟨reachable_run _, by decide,
    C21_scores_grow_by_award votingWithOneVote (reachable_run _) Op.advanceStage⟩

/-! ## C22: well-formed tally -/

theorem apiVote_cases (s : GameState) (v c : Option String) :
    (apiVote s v c).2 = s ∨
    ∃ cid voter votedPlayer, voter ∈ s.players ∧ votedPlayer ∈ s.players ∧
      votedPlayer.id = cid ∧ voter.id ≠ cid ∧
      (apiVote s v c).2.votes =
        recordVote
          (match lookupVotes s.votes cid with
            | Option.none => s.votes ++ [(cid, { count := 0, voters := [] })]
            | some _ => s.votes) cid voter.name := by
  by_cases hok : (apiVote s v c).1.isOk = false
  · exact Or.inl (apiVote_error_state s v c hok)
  · right
    by_cases hm : falsy v = true ∨ falsy c = true
    · exfalso; apply hok; simp only [apiVote, if_pos hm]; rfl
    · rw [not_or, not_falsy_iff, not_falsy_iff] at hm
      obtain ⟨⟨vid, rfl, hv⟩, ⟨cid, rfl, hc⟩⟩ := hm
      obtain ⟨r1, r2, r3, _⟩ := apiVote_result s vid cid hv hc
      have h1 : vid ≠ cid := fun h => hok (by rw [r1 h]; rfl)
      have h2 : vid ∉ s.votedPlayers := fun h => hok (by rw [r2 h1 h]; rfl)
      have h3 : ¬ ((∀ p ∈ s.players, some p.id ≠ some vid) ∨
          (∀ p ∈ s.players, some p.id ≠ some cid)) :=
        fun h => hok (by rw [r3 h1 h2 h]; rfl)
      rw [not_or, ← find_id_none_iff, ← find_id_none_iff] at h3
      obtain ⟨voter, hf1⟩ := Option.ne_none_iff_exists'.mp h3.1
      obtain ⟨votedPlayer, hf2⟩ := Option.ne_none_iff_exists'.mp h3.2
      have hvid : voter.id = vid := by
        have := List.find?_some hf1
        simpa using this
      have hcid : votedPlayer.id = cid := by
        have := List.find?_some hf2
        simpa using this
      refine ⟨cid, voter, votedPlayer, List.mem_of_find?_eq_some hf1,
        List.mem_of_find?_eq_some hf2, hcid, by rw [hvid]; exact h1, ?_⟩
      exact (apiVote_accept s vid cid hv hc h1 h2 voter votedPlayer hf1 hf2).2.2.2.2.2.2.1

theorem step_votes (s : GameState) (op : Op) :
    (step s op).votes = s.votes ∨ (step s op).votes = [] ∨
    ∃ v c, op = Op.castVote v c := by
  cases op with
  | registerPlayer name file now =>
    left
    rcases apiUpload_cases s name file now with ⟨_, h⟩ | ⟨n, f, _, _, _, _, _, h⟩ <;>
      simp only [step, h]
  | markReady playerId w i =>
    cases hf : falsy playerId with
    | true => left; simp only [step, apiReady_error s playerId w i hf]
    | false =>
      by_cases hc : (setAdd s.readyPlayers (playerId.getD "")).length = s.players.length ∧
          3 ≤ s.players.length
      · right; left; simp only [step, apiReady_start s playerId w i hf hc]
      · left; simp only [step, apiReady_noStart s playerId w i hf hc]
  | advanceStage =>
    simp only [step, apiNextStage]
    unfold nextStage
    split
    · exact Or.inl rfl
    · exact Or.inl rfl
    · exact Or.inr (Or.inl rfl)
    · exact Or.inl rfl
  | castVote v c => exact Or.inr (Or.inr ⟨v, c, rfl⟩)

theorem entryWellFormed_mono (players players' : List Player) (f : Player → Player)
    (extra : List Player) (hf : ∀ p, (f p).id = p.id ∧ (f p).name = p.name)
    (hpl : players' = players.map f ++ extra) (e : String × VoteData)
    (h : EntryWellFormed players e) : EntryWellFormed players' e := by
  have hmem : ∀ p ∈ players, f p ∈ players' := by
    intro p hp
    rw [hpl]
    exact List.mem_append_left _ (List.mem_map.mpr ⟨p, hp, rfl⟩)
  obtain ⟨⟨p, hp, hpid⟩, h1, h2, h3⟩ := h
  refine ⟨⟨f p, hmem p hp, by rw [(hf p).1]; exact hpid⟩, h1, h2, ?_⟩
  intro n hn
  obtain ⟨q, hq, hqn, hqid⟩ := h3 n hn
  exact ⟨f q, hmem q hq, by rw [(hf q).2]; exact hqn, by rw [(hf q).1]; exact hqid⟩

theorem reachable_tally (s : GameState) (h : Reachable s) :
    ∀ e ∈ s.votes, EntryWellFormed s.players e := by
  induction h with
  | init => intro e he; simp [initialState] at he
  | step s op _ ih =>
    obtain ⟨f, extra, hf, hpl, _⟩ := step_roster s op
    have hmono : ∀ e, EntryWellFormed s.players e → EntryWellFormed (step s op).players e :=
      fun e he => entryWellFormed_mono s.players _ f extra
        (fun p => ⟨(hf p).1, (hf p).2.1⟩) hpl e he
    rcases step_votes s op with hv | hv | ⟨v, c, rfl⟩
    · intro e he
      rw [hv] at he
      exact hmono e (ih e he)
    · intro e he
      rw [hv] at he
      cases he
    · rcases apiVote_cases s v c with hs | ⟨cid, voter, votedPlayer, hvm, hcm, hcid, hne, hvotes⟩
      · intro e he
        simp only [step, hs] at he ⊢
        exact ih e he
      · intro e' he'
        apply hmono
        simp only [step] at he'
        rw [hvotes] at he'
        obtain ⟨e, he, rfl⟩ := List.mem_map.mp he'
        have hcreated : e ∈ s.votes ∨ e = (cid, { count := 0, voters := [] }) := by
          split at he
          · rcases List.mem_append.mp he with h | h
            · exact Or.inl h
            · exact Or.inr (by simpa using h)
          · exact Or.inl he
        by_cases hk : e.1 = cid
        · simp only [hk, beq_self_eq_true, if_true]
          rcases hcreated with hold | hnew
          · obtain ⟨_, h1, h2, h3⟩ := ih e hold
            refine ⟨⟨votedPlayer, hcm, hcid⟩, Nat.le_add_left 1 _, ?_, ?_⟩
            · simp [h2]
            · intro n hn
              rcases List.mem_append.mp hn with hn | hn
              · obtain ⟨q, hq, hqn, hqid⟩ := h3 n hn
                exact ⟨q, hq, hqn, by rw [← hk]; exact hqid⟩
              · simp only [List.mem_singleton] at hn
                exact ⟨voter, hvm, hn.symm, hne⟩
          · subst hnew
            refine ⟨⟨votedPlayer, hcm, hcid⟩, Nat.le_refl 1, rfl, ?_⟩
            intro n hn
            simp only [List.nil_append, List.mem_singleton] at hn
            exact ⟨voter, hvm, hn.symm, hne⟩
        · have hkb : (e.1 == cid) = false := by simpa using hk
          simp only [hkb, Bool.false_eq_true, if_false]
          rcases hcreated with hold | hnew
          · exact ih e hold
          · subst hnew
            exact absurd rfl hk

/-- C22: in every reachable state every entry of `votes` has a key that is the
id of a roster member, a count that is at least 1 and equals the length of its
voter list, and a voter list in which every name is the name of a roster
member whose id differs from the key. -/
theorem C22_tally_well_formed (s : GameState) (hr : Reachable s) :
    ∀ e ∈ s.votes,
      (∃ p ∈ s.players, p.id = e.1) ∧ 1 ≤ e.2.count ∧ e.2.count = e.2.voters.length ∧
      ∀ n ∈ e.2.voters, ∃ p ∈ s.players, p.name = n ∧ p.id ≠ e.1 :=
  reachable_tally s hr

/-- C22 at the end-to-end scenario after the third vote, where the tally has
the entries of `P2` (voters `P1`, `P3`) and `P3` (voter `P2`). -/
theorem C22_tally_well_formed_witness :
    Reachable afterFullCoverage ∧
    afterFullCoverage.votes =
      [("1700000000002", { count := 2, voters := ["P1", "P3"] }),
        ("1700000000003", { count := 1, voters := ["P2"] })] ∧
    ∀ e ∈ afterFullCoverage.votes,
      (∃ p ∈ afterFullCoverage.players, p.id = e.1) ∧ 1 ≤ e.2.count ∧
      e.2.count = e.2.voters.length ∧
      ∀ n ∈ e.2.voters, ∃ p ∈ afterFullCoverage.players, p.name = n ∧ p.id ≠ e.1 :=
  ⟨reachable_run _, by decide, C22_tally_well_formed afterFullCoverage (reachable_run _)⟩

/-! ## C3: tie-break of the most voted player -/

theorem digitValue_le (c : Char) (d : Nat) (h : digitValue c = some d) : d ≤ 9 := by
  unfold digitValue at h
  split_ifs at h with hc
  · have := Option.some.inj h
    omega

/-- The id of a registration at a clock reading of at least `2^32 - 1`
milliseconds is not an array index. -/
theorem arrayIndex_toString_none (n : Nat) (h : 4294967295 ≤ n) :
    arrayIndex (toString n) = Option.none := by
  have hparse := parseDigits_toString n
  unfold arrayIndex
  split
  · rfl
  · rename_i c hdata
    rw [hdata] at hparse
    cases hd : digitValue c with
    | none => rfl
    | some d =>
      rw [parseDigits_cons c [] 0 d hd] at hparse
      have hle := digitValue_le c d hd
      have hn : 0 * 10 + d = n := Option.some.inj hparse
      omega
  · rename_i c cs hdata
    rw [hdata] at hparse
    split_ifs with h0
    · rfl
    · rw [hparse]
      simp only [Nat.not_lt.mpr h, if_false]

theorem ids_not_index_foldl (ops : List Op) :
    ∀ s : GameState, (∀ x ∈ s.players.map Player.id, arrayIndex x = Option.none) →
      (∀ n ∈ clockReadings ops, 4294967295 ≤ n) →
      ∀ x ∈ (ops.foldl step s).players.map Player.id, arrayIndex x = Option.none := by
  induction ops with
  | nil => intro s h _; exact h
  | cons op ops ih =>
    intro s hs hclock
    rw [List.foldl_cons]
    rcases step_ids s op with h | ⟨name, file, now, n, f, rfl, h⟩
    · refine ih (step s op) (by rw [h]; exact hs) ?_
      intro m hm
      apply hclock
      cases op <;> first | exact hm | exact List.mem_cons_of_mem _ hm
    · refine ih _ ?_ (fun m hm => hclock m (List.mem_cons_of_mem _ hm))
      intro x hx
      rw [h, List.map_append, List.mem_append] at hx
      rcases hx with hx | hx
      · exact hs x hx
      · simp only [List.map_cons, List.map_nil, List.mem_singleton] at hx
        rw [hx]
        exact arrayIndex_toString_none now (hclock now (List.mem_cons_self _ _))

/-- C3: in every state the server reaches by requests whose registrations read
a clock of at least `2^32 - 1` milliseconds (any time from 19 February 1970
on), if the tally is not empty then the most voted player computed by
`/api/next-stage` is an entry of maximal count, and among the entries of that
count it is the one created first: every entry created before it has a
smaller count. -/
theorem C3_tie_break_first_created (ops : List Op)
    (hclock : ∀ n ∈ clockReadings ops, 4294967295 ≤ n) (hne : (run ops).votes ≠ []) :
    ∃ pre e post, (run ops).votes = pre ++ e :: post ∧
      mostVotedPlayerId (run ops).votes = some e.1 ∧
      (∀ x ∈ (run ops).votes, x.2.count ≤ e.2.count) ∧
      (∀ x ∈ pre, x.2.count < e.2.count) ∧
      mostVotedPlayerId (run ops).votes = firstCreatedAtMax (run ops).votes := by
  have hr : Reachable (run ops) := reachable_run ops
  have hids : ∀ x ∈ (run ops).players.map Player.id, arrayIndex x = Option.none :=
    ids_not_index_foldl ops initialState (by simp [initialState]) hclock
  have hno : ∀ x ∈ (run ops).votes, arrayIndex x.1 = Option.none := by
    intro x hx
    obtain ⟨⟨p, hp, hpid⟩, _⟩ := reachable_tally (run ops) hr x hx
    rw [← hpid]
    exact hids p.id (List.mem_map.mpr ⟨p, hp, rfl⟩)
  exact mostVoted_first_created (run ops).votes hne (reachable_votes_pos (run ops) hr) hno

/-- C3 at the tally `{A: 2, B: 2}` of the specification, with `A = P1` and
`B = P2` among five players: when the entry of `A` is created first the most
voted player is `A`, and when the entry of `B` is created first it is `B`. -/
theorem C3_tie_break_first_created_witness :
    ((∀ n ∈ clockReadings tieAThenB, 4294967295 ≤ n) ∧ (run tieAThenB).votes ≠ [] ∧
      (run tieAThenB).stage = Stage.voting ∧
      (run tieAThenB).votes =
        [("1700000000001", { count := 2, voters := ["P3", "P5"] }),
          ("1700000000002", { count := 2, voters := ["P4", "P1"] })] ∧
      firstCreatedAtMax (run tieAThenB).votes = some "1700000000001" ∧
      mostVotedPlayerId (run tieAThenB).votes = some "1700000000001") ∧
    ((∀ n ∈ clockReadings tieBThenA, 4294967295 ≤ n) ∧ (run tieBThenA).votes ≠ [] ∧
      (run tieBThenA).stage = Stage.voting ∧
      (run tieBThenA).votes =
        [("1700000000002", { count := 2, voters := ["P3", "P1"] }),
          ("1700000000001", { count := 2, voters := ["P4", "P5"] })] ∧
      firstCreatedAtMax (run tieBThenA).votes = some "1700000000002" ∧
      mostVotedPlayerId (run tieBThenA).votes = some "1700000000002") :=
  ⟨⟨by decide, by decide, by decide, by decide, by decide,
      (match C3_tie_break_first_created tieAThenB (by decide) (by decide) with
        | ⟨_, _, _, _, _, _, _, h⟩ => h).trans (by decide)⟩,
    ⟨by decide, by decide, by decide, by decide, by decide,
      (match C3_tie_break_first_created tieBThenA (by decide) (by decide) with
        | ⟨_, _, _, _, _, _, _, h⟩ => h).trans (by decide)⟩⟩

end Game
